import Mathlib

/-!
Verification development for the `data-ingestion.py` API ingestion client
(`APIIngestion`).  The Python source is shallowly embedded: dictionaries
become association lists, `datetime` values become a record of numeric
fields, the HTTP layer and OAuth2 token exchange become oracles supplied
through an environment record, and each driver loop returns the list of
observable events (HTTP requests, log lines, object-storage writes) it
performs together with the uncaught Python exception, if any, that
terminated it.
-/

/-- Python exceptions that the embedded code can raise. `fuelExhausted` is
not a Python exception: it marks that the bounded model of the
`while start_date <= end_date` loop ran out of its (very large) step
budget, and it is treated as an abnormal termination. -/
inductive PyError where
  | valueError (msg : String)
  | typeError (msg : String)
  | keyError (key : String)
  | attributeError (msg : String)
  | jsonDecodeError
  | fuelExhausted
deriving DecidableEq, Repr

/-- A JSON value, the model of the Python values that `response.json()`
produces and `json.dumps` consumes.  Numbers are modelled as integers. -/
inductive Json where
  | null
  | bool (b : Bool)
  | num (n : Int)
  | str (s : String)
  | arr (xs : List Json)
  | obj (kvs : List (String × Json))
deriving Repr

/-- Python truthiness (`if data:`) of a JSON value: `None`, `False`, `0`,
`""`, `[]` and an empty object are falsy, everything else is truthy. -/
def pyTruthy : Json → Bool
  | .null => false
  | .bool b => b
  | .num n => n != 0
  | .str s => s != ""
  | .arr xs => !xs.isEmpty
  | .obj kvs => !kvs.isEmpty

/-- The digit character of `k % 10`. -/
def dchar (k : Nat) : Char := Char.ofNat (48 + k % 10)

/-- Is `c` a decimal digit? -/
def isDig (c : Char) : Bool := 48 ≤ c.toNat && c.toNat ≤ 57

/-- Lower-case hexadecimal digit character of `d` (`d < 16`). -/
def hexDig (d : Nat) : Char :=
  Char.ofNat (if d < 10 then 48 + d else 87 + d)

/-- Is `c` a lower-case hexadecimal digit? -/
def isHex (c : Char) : Bool :=
  (48 ≤ c.toNat && c.toNat ≤ 57) || (97 ≤ c.toNat && c.toNat ≤ 102)

/-- Numeric value of a hexadecimal digit character. -/
def hexVal (c : Char) : Nat :=
  if c.toNat ≤ 57 then c.toNat - 48 else c.toNat - 87

/-- Decimal digit characters of a positive natural number, most
significant first; the first argument is a step budget that makes the
recursion structural (`printNat` supplies a sufficient one). -/
def printNatAux : Nat → Nat → List Char
  | 0, _ => []
  | _+1, 0 => []
  | fuel+1, n+1 => printNatAux fuel ((n+1) / 10) ++ [dchar ((n+1) % 10)]

/-- Decimal digit characters of a natural number. -/
def printNat (n : Nat) : List Char := if n = 0 then ['0'] else printNatAux n n

/-- Decimal representation of an integer, mirroring Python `repr` of an
`int` as emitted by `json.dumps`. -/
def printInt (n : Int) : List Char :=
  if n < 0 then '-' :: printNat n.natAbs else printNat n.toNat

/-- JSON string escaping of one character: `"` and `\` get a backslash
escape, control characters become `\u00XX`, everything else is copied. -/
def escChar (c : Char) : List Char :=
  if c = '"' then ['\\', '"']
  else if c = '\\' then ['\\', '\\']
  else if c.toNat < 32 then
    ['\\', 'u', '0', '0', hexDig (c.toNat / 16), hexDig (c.toNat % 16)]
  else [c]

/-- JSON string escaping of a character list. -/
def escChars : List Char → List Char
  | [] => []
  | c :: cs => escChar c ++ escChars cs

mutual
/-- Characters of the JSON serialization of a value, with the separators
(`", "` and `": "`) that Python `json.dumps` uses by default. -/
def printVal : Json → List Char
  | .bool true => ['t', 'r', 'u', 'e']
  | .null => ['n', 'u', 'l', 'l']
  | .bool false => ['f', 'a', 'l', 's', 'e']
  | .num n => printInt n
  | .str s => '"' :: (escChars s.data ++ ['"'])
  | .arr xs => '[' :: (printItems xs ++ [']'])
  | .obj kvs => '\x7b' :: (printFields kvs ++ ['\x7d'])

/-- Serialization of the elements of a JSON array, `", "`-separated. -/
def printItems : List Json → List Char
  | [] => []
  | [x] => printVal x
  | x :: y :: xs => printVal x ++ (',' :: ' ' :: printItems (y :: xs))

/-- Serialization of the fields of a JSON object, `", "`-separated. -/
def printFields : List (String × Json) → List Char
  | [] => []
  | [(k, v)] => '"' :: (escChars k.data ++ ('"' :: ':' :: ' ' :: printVal v))
  | (k, v) :: f :: kvs =>
      ('"' :: (escChars k.data ++ ('"' :: ':' :: ' ' :: printVal v)))
        ++ (',' :: ' ' :: printFields (f :: kvs))
end

/-- The model of `json.dumps`: serialize a JSON value to a string. -/
def Json.dumps (j : Json) : String := String.mk (printVal j)

/-- Prepend a character to the content component of a string-body parse. -/
def consStr (c : Char) : Option (List Char × List Char) → Option (List Char × List Char)
  | some (content, rest) => some (c :: content, rest)
  | none => none

/-- Parse the body of a JSON string literal after the opening quote,
returning the unescaped content and the input after the closing quote. -/
def parseStrBody : List Char → Option (List Char × List Char)
  | [] => none
  | '\\' :: '"' :: r => consStr '"' (parseStrBody r)
  | '\\' :: '\\' :: r => consStr '\\' (parseStrBody r)
  | '\\' :: 'u' :: h1 :: h2 :: h3 :: h4 :: r =>
      if isHex h1 && isHex h2 && isHex h3 && isHex h4 then
        consStr (Char.ofNat (((hexVal h1 * 16 + hexVal h2) * 16 + hexVal h3) * 16 + hexVal h4))
          (parseStrBody r)
      else none
  | '\\' :: _ => none
  | '"' :: r => some ([], r)
  | c :: r => consStr c (parseStrBody r)

/-- Numeric value of a most-significant-first digit character list. -/
def valNum (ds : List Char) : Nat :=
  ds.foldl (fun a c => a * 10 + (c.toNat - 48)) 0

mutual
/-- Fuel-bounded recursive-descent JSON parser for one value, returning
the value parsed and the remaining input. -/
def parseVal : Nat → List Char → Option (Json × List Char)
  | 0, _ => none
  | _+1, [] => none
  | fuel+1, c :: cs =>
    if c = 'n' then
      match cs with
      | 'u' :: 'l' :: 'l' :: r => some (.null, r)
      | _ => none
    else if c = 't' then
      match cs with
      | 'r' :: 'u' :: 'e' :: r => some (.bool true, r)
      | _ => none
    else if c = 'f' then
      match cs with
      | 'a' :: 'l' :: 's' :: 'e' :: r => some (.bool false, r)
      | _ => none
    else if c = '"' then
      (parseStrBody cs).bind fun p => some (.str (String.mk p.1), p.2)
    else if c = '-' then
      match cs with
      | d :: _ =>
        if isDig d then
          some (.num (-(Int.ofNat (valNum (cs.takeWhile isDig)))), cs.dropWhile isDig)
        else none
      | [] => none
    else if isDig c then
      some (.num (Int.ofNat (valNum ((c :: cs).takeWhile isDig))), (c :: cs).dropWhile isDig)
    else if c = '[' then
      match cs with
      | [] => none
      | c2 :: cs2 =>
        if c2 = ']' then some (.arr [], cs2)
        else
          (parseVal fuel (c2 :: cs2)).bind fun p =>
            (parseArrTail fuel p.2).bind fun q => some (.arr (p.1 :: q.1), q.2)
    else if c = '\x7b' then
      match cs with
      | [] => none
      | c2 :: cs2 =>
        if c2 = '\x7d' then some (.obj [], cs2)
        else
          (parseField fuel (c2 :: cs2)).bind fun p =>
            (parseObjTail fuel p.2).bind fun q => some (.obj (p.1 :: q.1), q.2)
    else none

/-- Parse the remainder of a JSON array after its first element: either
the closing bracket or a `", "` separator followed by more elements. -/
def parseArrTail : Nat → List Char → Option (List Json × List Char)
  | 0, _ => none
  | _+1, [] => none
  | fuel+1, c :: cs =>
    if c = ']' then some ([], cs)
    else if c = ',' then
      match cs with
      | ' ' :: cs2 =>
        (parseVal fuel cs2).bind fun p =>
          (parseArrTail fuel p.2).bind fun q => some (p.1 :: q.1, q.2)
      | _ => none
    else none

/-- Parse one `"key": value` field of a JSON object. -/
def parseField : Nat → List Char → Option ((String × Json) × List Char)
  | 0, _ => none
  | _+1, [] => none
  | fuel+1, c :: cs =>
    if c = '"' then
      (parseStrBody cs).bind fun p =>
        match p.2 with
        | ':' :: ' ' :: r =>
          (parseVal fuel r).bind fun q => some ((String.mk p.1, q.1), q.2)
        | _ => none
    else none

/-- Parse the remainder of a JSON object after its first field. -/
def parseObjTail : Nat → List Char → Option (List (String × Json) × List Char)
  | 0, _ => none
  | _+1, [] => none
  | fuel+1, c :: cs =>
    if c = '\x7d' then some ([], cs)
    else if c = ',' then
      match cs with
      | ' ' :: cs2 =>
        (parseField fuel cs2).bind fun p =>
          (parseObjTail fuel p.2).bind fun q => some (p.1 :: q.1, q.2)
      | _ => none
    else none
end

/-- The model of JSON deserialization (Python `json.loads` /
`response.json()`): parse a complete JSON document. -/
def Json.parse (s : String) : Option Json :=
  match parseVal (s.data.length + 1) s.data with
  | some (j, []) => some j
  | _ => none

/-- A `datetime.datetime` value: numeric date and time-of-day fields. -/
structure DateTime where
  year : Nat
  month : Nat
  day : Nat
  hour : Nat
  minute : Nat
  second : Nat
deriving DecidableEq, Repr

/-- Two zero-padded decimal digits of `n % 100` (strftime `%m`, `%d`,
`%H`, `%M`, `%S`). -/
def pad2 (n : Nat) : List Char := [dchar (n / 10), dchar n]

/-- Four zero-padded decimal digits of `n % 10000` (strftime `%Y`). -/
def pad4 (n : Nat) : List Char :=
  [dchar (n / 1000), dchar (n / 100), dchar (n / 10), dchar n]

/-- `strftime('%Y-%m-%d')`. -/
def fmtDate (t : DateTime) : String :=
  String.mk (pad4 t.year ++ ('-' :: pad2 t.month) ++ ('-' :: pad2 t.day))

/-- `strftime('%Y-%m-%dT%H:%M:%S')`. -/
def fmtDateTimeISO (t : DateTime) : String :=
  String.mk (pad4 t.year ++ ('-' :: pad2 t.month) ++ ('-' :: pad2 t.day)
    ++ ('T' :: pad2 t.hour) ++ (':' :: pad2 t.minute) ++ (':' :: pad2 t.second))

/-- `strftime('%Y-%m-%d_%H-%M-%S')`, the timestamp used in storage keys. -/
def fmtTimestamp (t : DateTime) : String :=
  String.mk (pad4 t.year ++ ('-' :: pad2 t.month) ++ ('-' :: pad2 t.day)
    ++ ('_' :: pad2 t.hour) ++ ('-' :: pad2 t.minute) ++ ('-' :: pad2 t.second))

/-- Was `y` a Gregorian leap year? -/
def isLeap (y : Nat) : Bool := (y % 4 = 0 && y % 100 != 0) || y % 400 = 0

/-- Number of days of month `m` in year `y`. -/
def daysInMonth (y m : Nat) : Nat :=
  if m = 2 then (if isLeap y then 29 else 28)
  else if m = 4 || m = 6 || m = 9 || m = 11 then 30
  else 31

/-- `t + timedelta(days=1)`: the next calendar day, keeping the time of
day. -/
def nextDay (t : DateTime) : DateTime :=
  if t.day < daysInMonth t.year t.month then { t with day := t.day + 1 }
  else if t.month < 12 then { t with month := t.month + 1, day := 1 }
  else { t with year := t.year + 1, month := 1, day := 1 }

/-- `t - timedelta(days=1)`: the previous calendar day, keeping the time
of day. -/
def prevDay (t : DateTime) : DateTime :=
  if 1 < t.day then { t with day := t.day - 1 }
  else if 1 < t.month then
    { t with month := t.month - 1, day := daysInMonth t.year (t.month - 1) }
  else { t with year := t.year - 1, month := 12, day := 31 }

/-- Is `t` a valid calendar date with a four-digit year (time of day
unconstrained)? -/
def validDate (t : DateTime) : Bool :=
  1 ≤ t.month && t.month ≤ 12 && 1 ≤ t.day && t.day ≤ daysInMonth t.year t.month
    && t.year ≤ 9999

/-- Calendar order on dates (year, then month, then day). -/
def dateLeB (a b : DateTime) : Bool :=
  if a.year < b.year then true
  else if b.year < a.year then false
  else if a.month < b.month then true
  else if b.month < a.month then false
  else a.day ≤ b.day

/-- The model of `datetime.strptime(s, '%Y-%m-%d')`: accept exactly the
zero-padded ISO form and validate the calendar ranges; anything else is a
`ValueError`, as in Python. -/
def parseDate (s : String) : Except PyError DateTime :=
  match s.data with
  | [y1, y2, y3, y4, '-', m1, m2, '-', d1, d2] =>
    if isDig y1 && isDig y2 && isDig y3 && isDig y4 && isDig m1 && isDig m2
        && isDig d1 && isDig d2 then
      let y := valNum [y1, y2, y3, y4]
      let m := valNum [m1, m2]
      let d := valNum [d1, d2]
      if 1 ≤ m && m ≤ 12 && 1 ≤ d && d ≤ daysInMonth y m then
        .ok ⟨y, m, d, 0, 0, 0⟩
      else .error (.valueError "time data does not match format")
    else .error (.valueError "time data does not match format")
  | _ => .error (.valueError "time data does not match format")

/-- Lexicographic comparison of character lists by code point, the model
of Python string `<=`. -/
def lexLe : List Char → List Char → Bool
  | [], _ => true
  | _ :: _, [] => false
  | a :: as, b :: bs =>
    if a.toNat < b.toNat then true
    else if b.toNat < a.toNat then false
    else lexLe as bs

/-- Python string `<=`. -/
def pyStrLe (s t : String) : Bool := lexLe s.data t.data

/-- The `last_run` entry of an endpoint configuration.  Python stores
either the `datetime` default or, after a successful incremental cycle,
the *string* written by `strftime` — this union is the source of the
crash analysed for the incremental driver. -/
inductive LastRunVal where
  | dt (d : DateTime)
  | str (s : String)
deriving DecidableEq, Repr

/-- `last_run.strftime('%Y-%m-%dT%H:%M:%S')`: defined on `datetime`
values, raises `AttributeError` on strings. -/
def lastRunStrftime : LastRunVal → Except PyError String
  | .dt d => .ok (fmtDateTimeISO d)
  | .str _ => .error (.attributeError "str object has no attribute strftime")

/-- One endpoint descriptor from the configuration dictionary.  `url`,
`auth_type` and `auth_params` are accessed with `[]` in the source (so
they are modelled as required); `format`, `start_date`, `end_date` and
`last_run` are accessed with `.get` (so they are optional). -/
structure EndpointConfig where
  url : String
  auth_type : String
  auth_params : List (String × String)
  format : Option String := none
  start_date : Option String := none
  end_date : Option String := none
  last_run : Option LastRunVal := none
deriving DecidableEq, Repr

/-- An outbound HTTP GET request as `requests.get` / `OAuth2Session.get`
receives it: URL plus the credential material and query parameters
actually attached. -/
structure HttpRequest where
  url : String
  basicAuth : Option (String × String) := none
  bearer : Option String := none
  headers : Option (List (String × String)) := none
  params : Option (List (String × String)) := none
deriving DecidableEq, Repr

/-- An HTTP response: status code and raw body text. -/
structure HttpResponse where
  status_code : Nat
  text : String
deriving DecidableEq, Repr

/-- The external collaborators: the HTTP transport, the OAuth2
client-credentials token exchange (token_url, client_id, client_secret ↦
access token) and the S3 bucket name from the environment. -/
structure Env where
  http : HttpRequest → HttpResponse
  token : String → String → String → String
  bucket : String

/-- One observable action of the ingestion code: a driver-level call of
`fetch_data`, an HTTP request actually issued, a `print` diagnostic, or
an object-storage write of `body` under `key`. -/
inductive Event where
  | fetchCall (endpoint : String) (params : Option (List (String × String)))
  | request (req : HttpRequest)
  | log (msg : String)
  | persist (key : String) (body : String)
deriving DecidableEq, Repr

/-- Dictionary access `d[k]`: `KeyError` when absent. -/
def dictGet (d : List (String × String)) (k : String) : Except PyError String :=
  match d.lookup k with
  | some v => .ok v
  | none => .error (.keyError k)

/-- Dictionary membership `k in d`. -/
def hasKey (d : List (String × String)) (k : String) : Bool :=
  (d.lookup k).isSome

/-- The authentication dispatch of `fetch_data` (data-ingestion.py lines
34–60): build the request that is sent for the endpoint.  Mirrors the
`if/elif` chain on `auth_type`.  The caller-supplied `params` argument of
`fetch_data` never reaches the request: the `basic` and `oauth2` branches
do not pass it to the HTTP call, and the `apikey` branch rebinds `params`
to `None` before optionally installing the query-parameter credential —
hence this builder takes no `params` argument at all. -/
def buildRequest (env : Env) (ec : EndpointConfig) : Except PyError HttpRequest :=
  if ec.auth_type = "basic" then
    match dictGet ec.auth_params "username" with
    | .error e => .error e
    | .ok u =>
      match dictGet ec.auth_params "password" with
      | .error e => .error e
      | .ok p => .ok { url := ec.url, basicAuth := some (u, p) }
  else if ec.auth_type = "oauth2" then
    match dictGet ec.auth_params "client_id" with
    | .error e => .error e
    | .ok cid =>
      match dictGet ec.auth_params "client_secret" with
      | .error e => .error e
      | .ok cs =>
        match dictGet ec.auth_params "token_url" with
        | .error e => .error e
        | .ok turl => .ok { url := ec.url, bearer := some (env.token turl cid cs) }
  else if ec.auth_type = "apikey" then
    if hasKey ec.auth_params "header_key" then
      match dictGet ec.auth_params "header_key" with
      | .error e => .error e
      | .ok header_key =>
        match dictGet ec.auth_params "token" with
        | .error e => .error e
        | .ok token =>
          .ok { url := ec.url
                headers := some (if header_key = "Bearer"
                  then [("Authorization", "Bearer " ++ token)]
                  else [(header_key, token)]) }
    else if hasKey ec.auth_params "query_param" then
      match dictGet ec.auth_params "query_param" with
      | .error e => .error e
      | .ok query_param =>
        match dictGet ec.auth_params "token" with
        | .error e => .error e
        | .ok token => .ok { url := ec.url, params := some [(query_param, token)] }
    else
      .ok { url := ec.url }
  else .error (.valueError "Unsupported authentication type")

/-- The non-200 diagnostic of `fetch_data`. -/
def errMsg (url : String) (code : Nat) : String :=
  "Error fetching data from " ++ url ++ ": " ++ String.mk (printNat code)

/-- The response handling of `fetch_data` once the request `req` has been
built: issue the GET, and decode per the status/format rules of the
source (lines 67–76). -/
def fetchDecode (env : Env) (ec : EndpointConfig) (req : HttpRequest) :
    List Event × Except PyError (Option Json) :=
  if (env.http req).status_code = 200 then
    if ec.format = some "json" then
      match Json.parse (env.http req).text with
      | some j => ([.request req], .ok (some j))
      | none => ([.request req], .error .jsonDecodeError)
    else if ec.format = some "xml" then
      ([.request req], .ok (some (.str (env.http req).text)))
    else ([.request req], .ok none)
  else
    ([.request req, .log (errMsg ec.url (env.http req).status_code)], .ok none)

/-- `APIIngestion.fetch_data`: authenticate, issue one GET, and decode
the response: on status 200 parse JSON for `format == 'json'`, return the
raw text for `format == 'xml'`, and fall through to `None` for any other
format; on any other status print a diagnostic and return `None`.  The
caller-supplied `params` never reach the request (see `buildRequest`). -/
def fetch_data (env : Env) (ec : EndpointConfig)
    (params : Option (List (String × String))) :
    List Event × Except PyError (Option Json) :=
  match buildRequest env ec with
  | .error e => ([], .error e)
  | .ok req => fetchDecode env ec req

/-- `APIIngestion.upload_to_s3`: serialize with `json.dumps` and put the
object; its `try/except` never lets a storage failure escape. -/
def upload_to_s3 (env : Env) (data : Json) (file_name : String) : List Event :=
  [.persist file_name (Json.dumps data),
   .log ("Successfully uploaded " ++ file_name ++ " to S3 bucket " ++ env.bucket)]

/-- Python `len`: defined for strings, lists and dicts; `TypeError` for
numbers, booleans and `None`. -/
def pyLen : Json → Except PyError Nat
  | .str s => .ok s.length
  | .arr xs => .ok xs.length
  | .obj kvs => .ok kvs.length
  | _ => .error (.typeError "object has no len")

/-- `APIIngestion.process_data`: print the record count (this `len` call
raises `TypeError` on scalar payloads), build the storage key from the
current UTC instant, and upload. -/
def process_data (env : Env) (nowUtc : DateTime) (endpoint : String)
    (data : Json) : List Event × Option PyError :=
  match pyLen data with
  | .error e => ([], some e)
  | .ok n =>
    let file_name := endpoint ++ "/" ++ fmtTimestamp nowUtc ++ ".json"
    (Event.log ("Processing data from " ++ endpoint ++ ": "
        ++ String.mk (printNat n) ++ " records")
      :: upload_to_s3 env data file_name, none)

/-- The `if data: process_data(...)` step shared by the three drivers:
persist only when the fetched value is truthy. -/
def persistStep (env : Env) (nowUtc : DateTime) (name : String)
    (odata : Option Json) : List Event × Option PyError :=
  match odata with
  | some j => if pyTruthy j then process_data env nowUtc name j else ([], none)
  | none => ([], none)

/-- `APIIngestion.ingest_batch_data`, body for one endpoint: fetch with
no params, persist when the result is truthy.  An uncaught exception from
`fetch_data` or `process_data` is returned as the error component. -/
def batchEndpoint (env : Env) (nowUtc : DateTime) (name : String)
    (ec : EndpointConfig) : List Event × Option PyError :=
  match fetch_data env ec none with
  | (fevs, .error e) => (Event.fetchCall name none :: fevs, some e)
  | (fevs, .ok odata) =>
    match persistStep env nowUtc name odata with
    | (pevs, perr) => (Event.fetchCall name none :: (fevs ++ pevs), perr)

/-- `APIIngestion.ingest_batch_data`: iterate all configured endpoints in
order; an uncaught exception aborts the whole loop. -/
def ingest_batch_data (env : Env) (nowUtc : DateTime) :
    List (String × EndpointConfig) → List Event × Option PyError
  | [] => ([], none)
  | (name, ec) :: rest =>
    match batchEndpoint env nowUtc name ec with
    | (evs, some e) => (evs, some e)
    | (evs, none) =>
      match ingest_batch_data env nowUtc rest with
      | (revs, rerr) => (evs ++ revs, rerr)

/-- Step budget for the model of the `while start_date <= end_date` loop;
larger than the number of calendar days representable with a four-digit
year, so it is never the binding constraint on valid configurations. -/
def HISTFUEL : Nat := 4000000

/-- The `while start_date <= end_date` loop of
`APIIngestion.ingest_historical_data` for one endpoint: compare the date
strings with Python string `<=`, fetch with `params = {date: start_date}`,
persist truthy results, then advance `start_date` through
`strptime`/`timedelta(days=1)`/`strftime`. -/
def histLoop (env : Env) (nowUtc : DateTime) (name : String)
    (ec : EndpointConfig) : Nat → String → String → List Event × Option PyError
  | 0, _, _ => ([], some .fuelExhausted)
  | fuel+1, start_s, end_s =>
    if pyStrLe start_s end_s then
      match fetch_data env ec (some [("date", start_s)]) with
      | (fevs, .error e) =>
        (Event.fetchCall name (some [("date", start_s)]) :: fevs, some e)
      | (fevs, .ok odata) =>
        match persistStep env nowUtc name odata with
        | (pevs, some e) =>
          (Event.fetchCall name (some [("date", start_s)]) :: (fevs ++ pevs), some e)
        | (pevs, none) =>
          match parseDate start_s with
          | .error e =>
            (Event.fetchCall name (some [("date", start_s)]) :: (fevs ++ pevs), some e)
          | .ok d =>
            match histLoop env nowUtc name ec fuel (fmtDate (nextDay d)) end_s with
            | (revs, rerr) =>
              (Event.fetchCall name (some [("date", start_s)])
                :: (fevs ++ (pevs ++ revs)), rerr)
    else ([], none)

/-- `APIIngestion.ingest_historical_data`, body for one endpoint:
`start_date` is fetched with `.get` (so it may be `None`), `end_date`
defaults to today's date; a missing `start_date` makes the loop condition
compare `None <= str`, a `TypeError` in Python 3. -/
def histEndpoint (env : Env) (now nowUtc : DateTime) (name : String)
    (ec : EndpointConfig) : List Event × Option PyError :=
  let end_date := ec.end_date.getD (fmtDate now)
  match ec.start_date with
  | none => ([], some (.typeError "comparison not supported between NoneType and str"))
  | some s => histLoop env nowUtc name ec HISTFUEL s end_date

/-- `APIIngestion.ingest_historical_data`: iterate all configured
endpoints in order; an uncaught exception aborts the whole loop. -/
def ingest_historical_data (env : Env) (now nowUtc : DateTime) :
    List (String × EndpointConfig) → List Event × Option PyError
  | [] => ([], none)
  | (name, ec) :: rest =>
    match histEndpoint env now nowUtc name ec with
    | (evs, some e) => (evs, some e)
    | (evs, none) =>
      match ingest_historical_data env now nowUtc rest with
      | (revs, rerr) => (evs ++ revs, rerr)

/-- `APIIngestion.incremental_ingestion`, body for one endpoint:
`last_run` defaults to `now - timedelta(days=1)`; its `strftime` raises
`AttributeError` when `last_run` is the string a previous successful
cycle stored; on a truthy fetch the data is persisted and `last_run` is
rewritten (as a string) to the current time. -/
def incEndpoint (env : Env) (now nowUtc : DateTime) (name : String)
    (ec : EndpointConfig) : List Event × Option PyError × EndpointConfig :=
  match lastRunStrftime (ec.last_run.getD (.dt (prevDay now))) with
  | .error e => ([], some e, ec)
  | .ok since =>
    match fetch_data env ec (some [("since", since)]) with
    | (fevs, .error e) =>
      (Event.fetchCall name (some [("since", since)]) :: fevs, some e, ec)
    | (fevs, .ok odata) =>
      match odata with
      | some j =>
        if pyTruthy j then
          match process_data env nowUtc name j with
          | (pevs, some e) =>
            (Event.fetchCall name (some [("since", since)]) :: (fevs ++ pevs),
             some e, ec)
          | (pevs, none) =>
            (Event.fetchCall name (some [("since", since)]) :: (fevs ++ pevs),
             none, { ec with last_run := some (.str (fmtDateTimeISO now)) })
        else (Event.fetchCall name (some [("since", since)]) :: fevs, none, ec)
      | none => (Event.fetchCall name (some [("since", since)]) :: fevs, none, ec)

/-- `APIIngestion.incremental_ingestion`: iterate all configured
endpoints in order, returning the events, the uncaught exception if any,
and the endpoint list with its in-place `last_run` mutations. -/
def incremental_ingestion (env : Env) (now nowUtc : DateTime) :
    List (String × EndpointConfig) →
    List Event × Option PyError × List (String × EndpointConfig)
  | [] => ([], none, [])
  | (name, ec) :: rest =>
    match incEndpoint env now nowUtc name ec with
    | (evs, some e, ec2) => (evs, some e, (name, ec2) :: rest)
    | (evs, none, ec2) =>
      match incremental_ingestion env now nowUtc rest with
      | (revs, rerr, rest2) => (evs ++ revs, rerr, (name, ec2) :: rest2)

/-- A linear packing of a date that grows by at least one per calendar
day; used to bound and order the backfill iteration. -/
def dateOrd (t : DateTime) : Nat := t.year * 372 + t.month * 31 + t.day

/-- An upper bound on the number of days from `a` to `b` inclusive. -/
def daysBound (a b : DateTime) : Nat := dateOrd b + 1 - dateOrd a

/-- Fuel-bounded ascending list of calendar days from `a` to `b`
inclusive. -/
def dateListF : Nat → DateTime → DateTime → List DateTime
  | 0, _, _ => []
  | fuel+1, a, b => if dateLeB a b then a :: dateListF fuel (nextDay a) b else []

/-- The ascending list of calendar days from `a` to `b` inclusive:
`dateListF` with fuel that always suffices for valid dates. -/
def dateList (a b : DateTime) : List DateTime := dateListF (daysBound a b) a b

/-- Is this event a driver-level `fetch_data` call? -/
def isFetchCall : Event → Bool
  | .fetchCall _ _ => true
  | _ => false

/-- Is this event an object-storage write? -/
def isPersist : Event → Bool
  | .persist _ _ => true
  | _ => false

/-- Does the endpoint carry the auth parameters its `auth_type` branch
reads?  (For `apikey` the branch with neither shape still proceeds, so it
is included.) -/
def authReady (ec : EndpointConfig) : Bool :=
  (ec.auth_type == "basic" && hasKey ec.auth_params "username"
    && hasKey ec.auth_params "password")
  || (ec.auth_type == "oauth2" && hasKey ec.auth_params "client_id"
    && hasKey ec.auth_params "client_secret" && hasKey ec.auth_params "token_url")
  || (ec.auth_type == "apikey"
    && ((hasKey ec.auth_params "header_key" && hasKey ec.auth_params "token")
      || (!hasKey ec.auth_params "header_key" && hasKey ec.auth_params "query_param"
        && hasKey ec.auth_params "token")
      || (!hasKey ec.auth_params "header_key" && !hasKey ec.auth_params "query_param")))

/-- The shape `YYYY-MM-DD_HH-MM-SS` (all decimal digits in the digit
positions) of the timestamp part of a storage key. -/
def isTimestampShape (s : String) : Bool :=
  match s.data with
  | [a1, a2, a3, a4, '-', b1, b2, '-', c1, c2, '_', e1, e2, '-', f1, f2, '-', g1, g2] =>
    isDig a1 && isDig a2 && isDig a3 && isDig a4 && isDig b1 && isDig b2
      && isDig c1 && isDig c2 && isDig e1 && isDig e2 && isDig f1 && isDig f2
      && isDig g1 && isDig g2
  | _ => false

/-- `printRest xs` is what `printItems (x :: xs)` appends after
`printVal x`: a `", "`-separated tail. -/
def printRest : List Json → List Char
  | [] => []
  | y :: ys => ',' :: ' ' :: (printVal y ++ printRest ys)

/-- Serialization of a single `"key": value` field. -/
def printField1 (k : String) (v : Json) : List Char :=
  '"' :: (escChars k.data ++ ('"' :: ':' :: ' ' :: printVal v))

/-- `printFieldsRest kvs` is what `printFields (x :: kvs)` appends after
the first field. -/
def printFieldsRest : List (String × Json) → List Char
  | [] => []
  | (k, v) :: kvs => ',' :: ' ' :: (printField1 k v ++ printFieldsRest kvs)

mutual
/-- Fuel sufficient for `parseVal` to parse `printVal v`. -/
def jsonFuel : Json → Nat
  | .null | .bool _ | .num _ | .str _ => 1
  | .arr xs => 1 + listFuel xs
  | .obj kvs => 1 + objFuel kvs

/-- Fuel sufficient for `parseArrTail` to parse `printRest xs`. -/
def listFuel : List Json → Nat
  | [] => 1
  | x :: xs => 1 + max (jsonFuel x) (listFuel xs)

/-- Fuel sufficient for `parseObjTail` to parse `printFieldsRest kvs`. -/
def objFuel : List (String × Json) → Nat
  | [] => 1
  | (_, v) :: kvs => 1 + max (1 + jsonFuel v) (objFuel kvs)
end

/-- Is this `auth_type` one the `if/elif` chain of `fetch_data`
handles? -/
def supportedAuth (s : String) : Bool :=
  s == "basic" || s == "oauth2" || s == "apikey"

/-- An endpoint cycle that raises no uncaught exception: every fetch
returns normally, and any truthy payload it yields is one `process_data`
can handle. -/
def cleanCycle (env : Env) (nowUtc : DateTime) (name : String)
    (ec : EndpointConfig) : Prop :=
  ∀ p, (∃ evs x, fetch_data env ec p = (evs, .ok x))
    ∧ (∀ j, (fetch_data env ec p).2 = .ok (some j) → pyTruthy j = true →
        (process_data env nowUtc name j).2 = none)

/-- A test environment whose HTTP transport answers 404 to everything. -/
def env404 : Env :=
  { http := fun _ => { status_code := 404, text := "" },
    token := fun _ _ _ => "tok",
    bucket := "bkt" }

/-- A test environment whose HTTP transport answers 200 with body
`[1]`. -/
def envOk : Env :=
  { http := fun _ => { status_code := 200, text := "[1]" },
    token := fun _ _ _ => "tok",
    bucket := "bkt" }

/-- A basic-auth JSON endpoint. -/
def ecBasic : EndpointConfig :=
  { url := "http://api.example.com/a",
    auth_type := "basic",
    auth_params := [("username", "u"), ("password", "p")],
    format := some "json" }

/-- An OAuth2 JSON endpoint. -/
def ecOauth : EndpointConfig :=
  { url := "http://api.example.com/b",
    auth_type := "oauth2",
    auth_params := [("client_id", "cid"), ("client_secret", "cs"),
      ("token_url", "http://api.example.com/token")],
    format := some "json" }

/-- An apikey endpoint using query-parameter credentials. -/
def ecApiQuery : EndpointConfig :=
  { url := "http://api.example.com/c",
    auth_type := "apikey",
    auth_params := [("query_param", "api_key"), ("token", "T")],
    format := some "json" }

/-- An apikey endpoint whose `auth_params` carry neither the
`header_key` shape nor the `query_param` shape. -/
def ecApiNone : EndpointConfig :=
  { url := "http://api.example.com/k",
    auth_type := "apikey",
    auth_params := [("token", "T")],
    format := some "json" }

/-- An endpoint with an `auth_type` outside basic/oauth2/apikey. -/
def ecBad : EndpointConfig :=
  { url := "http://api.example.com/bad",
    auth_type := "digest",
    auth_params := [] }

/-- A basic-auth endpoint with a backfill date range. -/
def ecHist : EndpointConfig :=
  { url := "http://api.example.com/h",
    auth_type := "basic",
    auth_params := [("username", "u"), ("password", "p")],
    format := some "json",
    start_date := some "2024-01-01",
    end_date := some "2024-01-03" }

/-- A basic-auth endpooint without a `start_date`. -/
def ecNoStart : EndpointConfig :=
  { url := "http://api.example.com/n",
    auth_type := "basic",
    auth_params := [("username", "u"), ("password", "p")],
    format := some "json",
    end_date := some "2024-01-03" }

/-- A basic-auth endpoint whose `last_run` holds the string a previous
successful incremental cycle stored. -/
def ecLastRunStr : EndpointConfig :=
  { url := "http://api.example.com/i",
    auth_type := "basic",
    auth_params := [("username", "u"), ("password", "p")],
    format := some "json",
    last_run := some (.str "2025-06-01T12:00:00") }

/-- A fixed instant used as "now" in concrete runs. -/
def t0 : DateTime := ⟨2025, 6, 2, 12, 0, 0⟩

theorem charToNat_ofNat (n : Nat) (h : n < 55296) : (Char.ofNat n).toNat = n := by
  unfold Char.ofNat
  rw [dif_pos (Or.inl h)]
  simp [Char.toNat, Char.ofNatAux, UInt32.ofNat', UInt32.toNat]

theorem dchar_toNat (k : Nat) : (dchar k).toNat = 48 + k % 10 := by
  have h : k % 10 < 10 := Nat.mod_lt _ (by omega)
  exact charToNat_ofNat _ (by omega)

theorem isDig_dchar (k : Nat) : isDig (dchar k) = true := by
  have h : k % 10 < 10 := Nat.mod_lt _ (by omega)
  simp [isDig, dchar_toNat]
  omega

theorem char_ne_of_toNat_ne {a b : Char} (h : a.toNat ≠ b.toNat) : a ≠ b := by
  intro hab; exact h (by rw [hab])

theorem isDig_toNat {c : Char} (h : isDig c = true) : 48 ≤ c.toNat ∧ c.toNat ≤ 57 := by
  simp [isDig] at h; omega

theorem hexVal_hexDig (d : Nat) (h : d < 16) : hexVal (hexDig d) = d := by
  unfold hexDig
  by_cases h1 : d < 10
  · rw [if_pos h1]; unfold hexVal
    rw [charToNat_ofNat _ (by omega), if_pos (by omega)]; omega
  · rw [if_neg h1]; unfold hexVal
    rw [charToNat_ofNat _ (by omega), if_neg (by omega)]; omega

theorem isHex_hexDig (d : Nat) (h : d < 16) : isHex (hexDig d) = true := by
  unfold isHex hexDig
  by_cases h1 : d < 10
  · rw [if_pos h1, charToNat_ofNat _ (by omega)]; simp; omega
  · rw [if_neg h1, charToNat_ofNat _ (by omega)]; simp; omega

theorem valNum_append (xs : List Char) (c : Char) :
    valNum (xs ++ [c]) = valNum xs * 10 + (c.toNat - 48) := by
  simp [valNum, List.foldl_append]

theorem printNatAux_digits (fuel : Nat) :
    ∀ n, ∀ c ∈ printNatAux fuel n, isDig c = true := by
  induction fuel with
  | zero => intro n c hc; rw [printNatAux] at hc; cases hc
  | succ fuel ih =>
    intro n c hc
    match n with
    | 0 => rw [printNatAux] at hc; cases hc
    | m+1 =>
      rw [printNatAux] at hc
      rcases List.mem_append.mp hc with h | h
      · exact ih _ c h
      · simp at h; subst h; exact isDig_dchar _

theorem valNum_printNatAux (fuel : Nat) :
    ∀ n, n ≤ fuel → valNum (printNatAux fuel n) = n := by
  induction fuel with
  | zero => intro n hn; interval_cases n; rw [printNatAux]; rfl
  | succ fuel ih =>
    intro n hn
    match n with
    | 0 => rw [printNatAux]; rfl
    | m+1 =>
      have hd : (m+1) / 10 ≤ fuel := by omega
      rw [printNatAux, valNum_append, ih _ hd, dchar_toNat]
      have h : (m+1) % 10 < 10 := Nat.mod_lt _ (by omega)
      omega

theorem valNum_printNat (n : Nat) : valNum (printNat n) = n := by
  unfold printNat
  split_ifs with h
  · subst h; simp [valNum, dchar_toNat]
  · exact valNum_printNatAux n n le_rfl

theorem printNat_digits (n : Nat) : ∀ c ∈ printNat n, isDig c = true := by
  unfold printNat
  split_ifs with h
  · intro c hc; simp at hc; subst hc; decide
  · exact printNatAux_digits n n

theorem takeWhile_append_all {p : Char → Bool} {xs : List Char} (ys : List Char)
    (h : ∀ c ∈ xs, p c = true) :
    (xs ++ ys).takeWhile p = xs ++ ys.takeWhile p := by
  induction xs with
  | nil => simp
  | cons c cs ih =>
    simp only [List.cons_append, List.takeWhile_cons, h c (by simp), if_true]
    rw [ih (fun c hc => h c (by simp [hc]))]

theorem dropWhile_append_all {p : Char → Bool} {xs : List Char} (ys : List Char)
    (h : ∀ c ∈ xs, p c = true) :
    (xs ++ ys).dropWhile p = ys.dropWhile p := by
  induction xs with
  | nil => simp
  | cons c cs ih =>
    simp only [List.cons_append, List.dropWhile_cons, h c (by simp), if_true]
    exact ih (fun c hc => h c (by simp [hc]))

/-- The first character of `rest`, if any, is not a decimal digit: the
condition under which a serialized number followed by `rest` parses back
unambiguously. -/
def restOk (rest : List Char) : Prop :=
  ∀ c cs, rest = c :: cs → isDig c = false

theorem restOk_nil : restOk [] := by intro c cs h; cases h

theorem restOk_cons {c : Char} (h : isDig c = false) (cs : List Char) :
    restOk (c :: cs) := by
  intro d ds hd; cases hd; exact h

theorem takeWhile_dig_restOk {rest : List Char} (h : restOk rest) :
    rest.takeWhile isDig = [] := by
  cases rest with
  | nil => rfl
  | cons c cs => simp [List.takeWhile_cons, h c cs rfl]

theorem dropWhile_dig_restOk {rest : List Char} (h : restOk rest) :
    rest.dropWhile isDig = rest := by
  cases rest with
  | nil => rfl
  | cons c cs => simp [List.dropWhile_cons, h c cs rfl]

theorem parseStrBody_cons_plain (c : Char) (h1 : c ≠ '\\') (h2 : c ≠ '"')
    (r : List Char) : parseStrBody (c :: r) = consStr c (parseStrBody r) := by
  rw [parseStrBody.eq_def]
  split
  all_goals first
    | rfl
    | (rename_i heq; obtain ⟨hc, hr⟩ := heq; subst hc; subst hr; rfl)
    | (rename_i heq; injection heq with hc hr; subst hc; subst hr; rfl)
    | (exfalso; simp_all)

theorem parseStrBody_esc (cs rest : List Char) :
    parseStrBody (escChars cs ++ ('"' :: rest)) = some (cs, rest) := by
  induction cs with
  | nil =>
    show parseStrBody ('"' :: rest) = _
    rw [parseStrBody]
  | cons c cs ih =>
    show parseStrBody ((escChar c ++ escChars cs) ++ ('"' :: rest)) = _
    rw [List.append_assoc]
    unfold escChar
    by_cases h1 : c = '"'
    · rw [if_pos h1]
      show parseStrBody ('\\' :: '"' :: (escChars cs ++ ('"' :: rest))) = _
      rw [parseStrBody, ih, h1]; rfl
    · rw [if_neg h1]
      by_cases h2 : c = '\\'
      · rw [if_pos h2]
        show parseStrBody ('\\' :: '\\' :: (escChars cs ++ ('"' :: rest))) = _
        rw [parseStrBody, ih, h2]; rfl
      · rw [if_neg h2]
        by_cases h3 : c.toNat < 32
        · rw [if_pos h3]
          show parseStrBody ('\\' :: 'u' :: '0' :: '0' :: hexDig (c.toNat / 16)
            :: hexDig (c.toNat % 16) :: (escChars cs ++ ('"' :: rest))) = _
          rw [parseStrBody]
          have e1 : isHex '0' = true := by decide
          have e2 : isHex (hexDig (c.toNat / 16)) = true :=
            isHex_hexDig _ (by omega)
          have e3 : isHex (hexDig (c.toNat % 16)) = true :=
            isHex_hexDig _ (by omega)
          rw [e1, e2, e3]
          simp only [Bool.and_true, Bool.true_and, if_true]
          rw [ih]
          have v0 : hexVal '0' = 0 := by decide
          rw [v0, hexVal_hexDig _ (by omega), hexVal_hexDig _ (by omega)]
          have hc : ((0 * 16 + 0) * 16 + c.toNat / 16) * 16 + c.toNat % 16 = c.toNat := by
            omega
          rw [hc, Char.ofNat_toNat]
          rfl
        · rw [if_neg h3]
          show parseStrBody (c :: (escChars cs ++ ('"' :: rest))) = _
          rw [parseStrBody_cons_plain c h2 h1, ih]
          rfl


theorem printItems_eq (xs : List Json) :
    ∀ x, printItems (x :: xs) = printVal x ++ printRest xs := by
  induction xs with
  | nil => intro x; rw [printItems, printRest, List.append_nil]
  | cons y ys ih =>
    intro x
    rw [printItems, printRest, ih y]

theorem printFields_eq (kvs : List (String × Json)) :
    ∀ k v, printFields ((k, v) :: kvs) = printField1 k v ++ printFieldsRest kvs := by
  induction kvs with
  | nil => intro k v; rw [printFields, printFieldsRest, printField1, List.append_nil]
  | cons f fs ih =>
    intro k v
    match f with
    | (k2, v2) => rw [printFields, printFieldsRest, ih k2 v2]; rfl

theorem printNatAux_cons (fuel : Nat) :
    ∀ n, 0 < n → n ≤ fuel → ∃ c cs, printNatAux fuel n = c :: cs ∧ isDig c = true := by
  induction fuel with
  | zero => intro n hn hf; omega
  | succ fuel ih =>
    intro n hn hf
    match n with
    | m+1 =>
      rw [printNatAux]
      by_cases hz : (m+1) / 10 = 0
      · rw [hz]
        rw [show printNatAux fuel 0 = [] from by cases fuel <;> rw [printNatAux]]
        rw [List.nil_append]
        exact ⟨_, _, rfl, isDig_dchar _⟩
      · obtain ⟨c, cs, hcs, hd⟩ := ih _ (Nat.pos_of_ne_zero hz) (by omega)
        rw [hcs]
        exact ⟨c, _, rfl, hd⟩

theorem printNat_cons (n : Nat) :
    ∃ c cs, printNat n = c :: cs ∧ isDig c = true := by
  unfold printNat
  split_ifs with h
  · exact ⟨'0', [], rfl, by decide⟩
  · exact printNatAux_cons n n (by omega) le_rfl

theorem printVal_cons (v : Json) :
    ∃ c cs, printVal v = c :: cs ∧ c ≠ ']' := by
  match v with
  | .null => exact ⟨'n', _, by rw [printVal], by decide⟩
  | .bool true => exact ⟨'t', _, by rw [printVal], by decide⟩
  | .bool false => exact ⟨'f', _, by rw [printVal], by decide⟩
  | .num n =>
    rw [printVal]
    unfold printInt
    split_ifs with h
    · exact ⟨'-', _, rfl, by decide⟩
    · obtain ⟨c, cs, hcs, hd⟩ := printNat_cons n.toNat
      refine ⟨c, cs, hcs, char_ne_of_toNat_ne ?_⟩
      have := isDig_toNat hd
      intro hc
      rw [hc] at this
      simp at this
  | .str s => exact ⟨'"', _, by rw [printVal], by decide⟩
  | .arr xs => exact ⟨'[', _, by rw [printVal], by decide⟩
  | .obj kvs => exact ⟨'\x7b', _, by rw [printVal], by decide⟩

theorem fuelLen : ∀ n : Nat,
    (∀ v : Json, sizeOf v ≤ n → jsonFuel v ≤ (printVal v).length + 1)
    ∧ (∀ xs : List Json, sizeOf xs ≤ n → listFuel xs ≤ (printRest xs).length + 1)
    ∧ (∀ kvs : List (String × Json), sizeOf kvs ≤ n →
        objFuel kvs ≤ (printFieldsRest kvs).length + 1) := by
  intro n
  induction n using Nat.strong_induction_on with
  | _ n ih =>
    refine ⟨?_, ?_, ?_⟩
    · intro v hv
      match v with
      | .null | .bool _ | .num _ | .str _ =>
        rw [jsonFuel]; omega
      | .arr xs =>
        rw [jsonFuel, printVal]
        match xs with
        | [] =>
          rw [listFuel, printItems]
          simp
        | x :: xs =>
          simp only [Json.arr.sizeOf_spec, List.cons.sizeOf_spec] at hv
          have h1 := ((ih (sizeOf x) (by omega)).1) x le_rfl
          have h2 := ((ih (sizeOf xs) (by omega)).2.1) xs le_rfl
          rw [listFuel, printItems_eq]
          simp only [List.length_cons, List.length_append]
          have hm : max (jsonFuel x) (listFuel xs)
              ≤ (printVal x).length + (printRest xs).length + 1 :=
            Nat.max_le.mpr ⟨by omega, by omega⟩
          omega
      | .obj kvs =>
        rw [jsonFuel, printVal]
        match kvs with
        | [] =>
          rw [objFuel, printFields]
          simp
        | (k, v2) :: kvs =>
          simp only [Json.obj.sizeOf_spec, List.cons.sizeOf_spec,
            Prod.mk.sizeOf_spec] at hv
          have h1 := ((ih (sizeOf v2) (by omega)).1) v2 le_rfl
          have h2 := ((ih (sizeOf kvs) (by omega)).2.2) kvs le_rfl
          rw [objFuel, printFields_eq]
          simp only [List.length_cons, List.length_append, printField1]
          have hm : max (1 + jsonFuel v2) (objFuel kvs)
              ≤ 2 + (printVal v2).length + (printFieldsRest kvs).length :=
            Nat.max_le.mpr ⟨by omega, by omega⟩
          omega
    · intro xs hxs
      match xs with
      | [] => rw [listFuel, printRest]; simp
      | y :: ys =>
        simp only [List.cons.sizeOf_spec] at hxs
        have h1 := ((ih (sizeOf y) (by omega)).1) y le_rfl
        have h2 := ((ih (sizeOf ys) (by omega)).2.1) ys le_rfl
        rw [listFuel, printRest]
        simp only [List.length_cons, List.length_append]
        have hm : max (jsonFuel y) (listFuel ys)
            ≤ (printVal y).length + (printRest ys).length + 1 :=
          Nat.max_le.mpr ⟨by omega, by omega⟩
        omega
    · intro kvs hkvs
      match kvs with
      | [] => rw [objFuel, printFieldsRest]; simp
      | (k, v2) :: kvs =>
        simp only [List.cons.sizeOf_spec, Prod.mk.sizeOf_spec] at hkvs
        have h1 := ((ih (sizeOf v2) (by omega)).1) v2 le_rfl
        have h2 := ((ih (sizeOf kvs) (by omega)).2.2) kvs le_rfl
        rw [objFuel, printFieldsRest]
        simp only [List.length_cons, List.length_append, printField1]
        have hm : max (1 + jsonFuel v2) (objFuel kvs)
            ≤ 2 + (printVal v2).length + (printFieldsRest kvs).length :=
          Nat.max_le.mpr ⟨by omega, by omega⟩
        omega

theorem stringMk_data (s : String) : String.mk s.data = s := by cases s; rfl

theorem isDig_ne_n {c : Char} (h : isDig c = true) : c ≠ 'n' := by
  have hb := isDig_toNat h
  refine char_ne_of_toNat_ne ?_
  have hn : ('n').toNat = 110 := rfl
  omega

theorem isDig_ne_t {c : Char} (h : isDig c = true) : c ≠ 't' := by
  have hb := isDig_toNat h
  refine char_ne_of_toNat_ne ?_
  have hn : ('t').toNat = 116 := rfl
  omega

theorem isDig_ne_f {c : Char} (h : isDig c = true) : c ≠ 'f' := by
  have hb := isDig_toNat h
  refine char_ne_of_toNat_ne ?_
  have hn : ('f').toNat = 102 := rfl
  omega

theorem isDig_ne_q {c : Char} (h : isDig c = true) : c ≠ '"' := by
  have hb := isDig_toNat h
  refine char_ne_of_toNat_ne ?_
  have hn : ('"').toNat = 34 := rfl
  omega

theorem isDig_ne_m {c : Char} (h : isDig c = true) : c ≠ '-' := by
  have hb := isDig_toNat h
  refine char_ne_of_toNat_ne ?_
  have hn : ('-').toNat = 45 := rfl
  omega

theorem parseVal_cons_eq (F : Nat) (c : Char) (cs : List Char) :
    parseVal (F+1) (c :: cs) =
      (if c = 'n' then
        match cs with
        | 'u' :: 'l' :: 'l' :: r => some (.null, r)
        | _ => none
      else if c = 't' then
        match cs with
        | 'r' :: 'u' :: 'e' :: r => some (.bool true, r)
        | _ => none
      else if c = 'f' then
        match cs with
        | 'a' :: 'l' :: 's' :: 'e' :: r => some (.bool false, r)
        | _ => none
      else if c = '"' then
        (parseStrBody cs).bind fun p => some (.str (String.mk p.1), p.2)
      else if c = '-' then
        match cs with
        | d :: _ =>
          if isDig d then
            some (.num (-(Int.ofNat (valNum (cs.takeWhile isDig)))), cs.dropWhile isDig)
          else none
        | [] => none
      else if isDig c then
        some (.num (Int.ofNat (valNum ((c :: cs).takeWhile isDig))), (c :: cs).dropWhile isDig)
      else if c = '[' then
        match cs with
        | [] => none
        | c2 :: cs2 =>
          if c2 = ']' then some (.arr [], cs2)
          else
            (parseVal F (c2 :: cs2)).bind fun p =>
              (parseArrTail F p.2).bind fun q => some (.arr (p.1 :: q.1), q.2)
      else if c = '\x7b' then
        match cs with
        | [] => none
        | c2 :: cs2 =>
          if c2 = '\x7d' then some (.obj [], cs2)
          else
            (parseField F (c2 :: cs2)).bind fun p =>
              (parseObjTail F p.2).bind fun q => some (.obj (p.1 :: q.1), q.2)
      else none) := rfl

theorem parseVal_null (F : Nat) (r : List Char) :
    parseVal (F+1) ('n' :: 'u' :: 'l' :: 'l' :: r) = some (.null, r) := rfl

theorem parseVal_true (F : Nat) (r : List Char) :
    parseVal (F+1) ('t' :: 'r' :: 'u' :: 'e' :: r) = some (.bool true, r) := rfl

theorem parseVal_false (F : Nat) (r : List Char) :
    parseVal (F+1) ('f' :: 'a' :: 'l' :: 's' :: 'e' :: r) = some (.bool false, r) := rfl

theorem parseVal_str (F : Nat) (cs content r : List Char)
    (h : parseStrBody cs = some (content, r)) :
    parseVal (F+1) ('"' :: cs) = some (.str (String.mk content), r) := by
  show (parseStrBody cs).bind _ = _
  rw [h, Option.some_bind]

theorem parseVal_digit (F : Nat) (c : Char) (cs : List Char) (h : isDig c = true) :
    parseVal (F+1) (c :: cs) =
      some (.num (Int.ofNat (valNum ((c :: cs).takeWhile isDig))),
        (c :: cs).dropWhile isDig) := by
  rw [parseVal_cons_eq, if_neg (isDig_ne_n h), if_neg (isDig_ne_t h),
    if_neg (isDig_ne_f h), if_neg (isDig_ne_q h), if_neg (isDig_ne_m h), if_pos h]

theorem parseVal_neg (F : Nat) (d : Char) (cs2 : List Char) (h : isDig d = true) :
    parseVal (F+1) ('-' :: d :: cs2) =
      some (.num (-(Int.ofNat (valNum ((d :: cs2).takeWhile isDig)))),
        (d :: cs2).dropWhile isDig) := by
  show (if isDig d then _ else none) = _
  rw [if_pos h]

theorem parseVal_arr_nil (F : Nat) (r : List Char) :
    parseVal (F+1) ('[' :: ']' :: r) = some (.arr [], r) := rfl

theorem parseVal_arr_cons (F : Nat) (c2 : Char) (cs2 : List Char) (v : Json)
    (vs : List Json) (r1 r2 : List Char) (h : c2 ≠ ']')
    (hv : parseVal F (c2 :: cs2) = some (v, r1))
    (ht : parseArrTail F r1 = some (vs, r2)) :
    parseVal (F+1) ('[' :: c2 :: cs2) = some (.arr (v :: vs), r2) := by
  show (if c2 = ']' then some (Json.arr [], cs2)
    else (parseVal F (c2 :: cs2)).bind fun p =>
      (parseArrTail F p.2).bind fun q => some (Json.arr (p.1 :: q.1), q.2))
    = some (Json.arr (v :: vs), r2)
  rw [if_neg h, hv, Option.some_bind]
  show ((parseArrTail F r1).bind fun q => some (Json.arr (v :: q.1), q.2))
    = some (Json.arr (v :: vs), r2)
  rw [ht, Option.some_bind]

theorem parseVal_obj_nil (F : Nat) (r : List Char) :
    parseVal (F+1) ('\x7b' :: '\x7d' :: r) = some (.obj [], r) := rfl

theorem parseVal_obj_cons (F : Nat) (c2 : Char) (cs2 : List Char)
    (kv : String × Json) (kvs : List (String × Json)) (r1 r2 : List Char)
    (h : c2 ≠ '\x7d')
    (hv : parseField F (c2 :: cs2) = some (kv, r1))
    (ht : parseObjTail F r1 = some (kvs, r2)) :
    parseVal (F+1) ('\x7b' :: c2 :: cs2) = some (.obj (kv :: kvs), r2) := by
  show (if c2 = '\x7d' then some (Json.obj [], cs2)
    else (parseField F (c2 :: cs2)).bind fun p =>
      (parseObjTail F p.2).bind fun q => some (Json.obj (p.1 :: q.1), q.2))
    = some (Json.obj (kv :: kvs), r2)
  rw [if_neg h, hv, Option.some_bind]
  show ((parseObjTail F r1).bind fun q => some (Json.obj (kv :: q.1), q.2))
    = some (Json.obj (kv :: kvs), r2)
  rw [ht, Option.some_bind]

theorem parseArrTail_close (F : Nat) (r : List Char) :
    parseArrTail (F+1) (']' :: r) = some ([], r) := rfl

theorem parseArrTail_sep (F : Nat) (cs2 : List Char) (v : Json) (vs : List Json)
    (r1 r2 : List Char) (hv : parseVal F cs2 = some (v, r1))
    (ht : parseArrTail F r1 = some (vs, r2)) :
    parseArrTail (F+1) (',' :: ' ' :: cs2) = some (v :: vs, r2) := by
  show (parseVal F cs2).bind _ = _
  rw [hv, Option.some_bind]
  show (parseArrTail F r1).bind _ = _
  rw [ht, Option.some_bind]

theorem parseField_print (F : Nat) (cs content : List Char) (v : Json)
    (r r2 : List Char) (hs : parseStrBody cs = some (content, ':' :: ' ' :: r))
    (hv : parseVal F r = some (v, r2)) :
    parseField (F+1) ('"' :: cs) = some ((String.mk content, v), r2) := by
  show (parseStrBody cs).bind _ = _
  rw [hs, Option.some_bind]
  show (parseVal F r).bind _ = _
  rw [hv, Option.some_bind]

theorem parseObjTail_close (F : Nat) (r : List Char) :
    parseObjTail (F+1) ('\x7d' :: r) = some ([], r) := rfl

theorem parseObjTail_sep (F : Nat) (cs2 : List Char) (kv : String × Json)
    (kvs : List (String × Json)) (r1 r2 : List Char)
    (hv : parseField F cs2 = some (kv, r1))
    (ht : parseObjTail F r1 = some (kvs, r2)) :
    parseObjTail (F+1) (',' :: ' ' :: cs2) = some (kv :: kvs, r2) := by
  show (parseField F cs2).bind _ = _
  rw [hv, Option.some_bind]
  show (parseObjTail F r1).bind _ = _
  rw [ht, Option.some_bind]

theorem parseNum_printNat (F k : Nat) (rest : List Char) (hrest : restOk rest) :
    parseVal (F+1) (printNat k ++ rest) = some (.num (Int.ofNat k), rest) := by
  obtain ⟨c, cs, hcs, hd⟩ := printNat_cons k
  have hall : ∀ x ∈ (c :: cs), isDig x = true := by
    rw [← hcs]; exact printNat_digits k
  rw [hcs, List.cons_append, parseVal_digit F c (cs ++ rest) hd, ← List.cons_append,
    takeWhile_append_all rest hall, dropWhile_append_all rest hall,
    takeWhile_dig_restOk hrest, dropWhile_dig_restOk hrest, List.append_nil,
    ← hcs, valNum_printNat]

theorem parseNum_print (F : Nat) (n : Int) (rest : List Char) (hrest : restOk rest) :
    parseVal (F+1) (printInt n ++ rest) = some (.num n, rest) := by
  unfold printInt
  split_ifs with h
  · obtain ⟨c, cs, hcs, hd⟩ := printNat_cons n.natAbs
    have hall : ∀ x ∈ (c :: cs), isDig x = true := by
      rw [← hcs]; exact printNat_digits n.natAbs
    rw [List.cons_append, hcs, List.cons_append,
      parseVal_neg F c (cs ++ rest) hd, ← List.cons_append,
      takeWhile_append_all rest hall, dropWhile_append_all rest hall,
      takeWhile_dig_restOk hrest, dropWhile_dig_restOk hrest, List.append_nil,
      ← hcs, valNum_printNat]
    have hn : -(Int.ofNat n.natAbs) = n := by rw [Int.ofNat_eq_natCast]; omega
    rw [hn]
  · have hn : Int.ofNat n.toNat = n := by rw [Int.ofNat_eq_natCast]; omega
    rw [parseNum_printNat F n.toNat rest hrest, hn]

theorem restOk_sep_arr (ys : List Json) (rest : List Char) :
    restOk (printRest ys ++ (']' :: rest)) := by
  match ys with
  | [] => rw [printRest, List.nil_append]; exact restOk_cons (by decide) rest
  | y :: ys => rw [printRest, List.cons_append]; exact restOk_cons (by decide) _

theorem restOk_sep_obj (kvs : List (String × Json)) (rest : List Char) :
    restOk (printFieldsRest kvs ++ ('\x7d' :: rest)) := by
  match kvs with
  | [] => rw [printFieldsRest, List.nil_append]; exact restOk_cons (by decide) rest
  | (k, v) :: kvs => rw [printFieldsRest, List.cons_append]; exact restOk_cons (by decide) _

theorem jsonFuel_pos (v : Json) : 1 ≤ jsonFuel v := by
  match v with
  | .null | .bool _ | .num _ | .str _ => rw [jsonFuel]
  | .arr xs => rw [jsonFuel]; omega
  | .obj kvs => rw [jsonFuel]; omega

theorem listFuel_pos (xs : List Json) : 1 ≤ listFuel xs := by
  match xs with
  | [] => rw [listFuel]
  | x :: xs => rw [listFuel]; omega

theorem objFuel_pos (kvs : List (String × Json)) : 1 ≤ objFuel kvs := by
  match kvs with
  | [] => rw [objFuel]
  | (k, v) :: kvs => rw [objFuel]; omega

theorem parsePrintAll : ∀ F : Nat,
    (∀ v rest, jsonFuel v ≤ F → restOk rest →
      parseVal F (printVal v ++ rest) = some (v, rest))
    ∧ (∀ xs rest, listFuel xs ≤ F →
      parseArrTail F (printRest xs ++ (']' :: rest)) = some (xs, rest))
    ∧ (∀ (k : String) (v : Json) rest, 1 + jsonFuel v ≤ F → restOk rest →
      parseField F (printField1 k v ++ rest) = some ((k, v), rest))
    ∧ (∀ kvs rest, objFuel kvs ≤ F →
      parseObjTail F (printFieldsRest kvs ++ ('\x7d' :: rest)) = some (kvs, rest)) := by
  intro F
  induction F with
  | zero =>
    refine ⟨?_, ?_, ?_, ?_⟩
    · intro v rest hf _; exact absurd (le_trans (jsonFuel_pos v) hf) (by omega)
    · intro xs rest hf; exact absurd (le_trans (listFuel_pos xs) hf) (by omega)
    · intro k v rest hf _; exact absurd hf (by omega)
    · intro kvs rest hf; exact absurd (le_trans (objFuel_pos kvs) hf) (by omega)
  | succ F ih =>
    obtain ⟨ihV, ihA, ihF, ihO⟩ := ih
    refine ⟨?_, ?_, ?_, ?_⟩
    · intro v rest hfuel hrest
      match v with
      | .null => rw [printVal]; exact parseVal_null F rest
      | .bool true => rw [printVal]; exact parseVal_true F rest
      | .bool false => rw [printVal]; exact parseVal_false F rest
      | .num n => rw [printVal]; exact parseNum_print F n rest hrest
      | .str s =>
        rw [printVal, List.cons_append, List.append_assoc]
        have hs := parseVal_str F (escChars s.data ++ ('"' :: rest)) s.data rest
          (parseStrBody_esc s.data rest)
        rw [stringMk_data] at hs
        exact hs
      | .arr xs =>
        match xs with
        | [] =>
          rw [printVal, printItems, List.nil_append]
          exact parseVal_arr_nil F rest
        | x :: xs =>
          rw [jsonFuel, listFuel] at hfuel
          have hm1 := Nat.le_max_left (jsonFuel x) (listFuel xs)
          have hm2 := Nat.le_max_right (jsonFuel x) (listFuel xs)
          obtain ⟨c, cs, hcs, hne⟩ := printVal_cons x
          have hx := ihV x (printRest xs ++ (']' :: rest)) (by omega)
            (restOk_sep_arr xs rest)
          rw [hcs, List.cons_append] at hx
          have ht := ihA xs rest (by omega)
          rw [printVal, printItems_eq, List.cons_append, List.append_assoc,
            List.append_assoc, hcs, List.cons_append]
          exact parseVal_arr_cons F c _ x xs _ rest hne hx ht
      | .obj kvs =>
        match kvs with
        | [] =>
          rw [printVal, printFields, List.nil_append]
          exact parseVal_obj_nil F rest
        | (k, v2) :: kvs =>
          rw [jsonFuel, objFuel] at hfuel
          have hm1 := Nat.le_max_left (1 + jsonFuel v2) (objFuel kvs)
          have hm2 := Nat.le_max_right (1 + jsonFuel v2) (objFuel kvs)
          have hx := ihF k v2 (printFieldsRest kvs ++ ('\x7d' :: rest)) (by omega)
            (restOk_sep_obj kvs rest)
          rw [printField1, List.cons_append] at hx
          have ht := ihO kvs rest (by omega)
          rw [printVal, printFields_eq, List.cons_append, List.append_assoc,
            List.append_assoc, printField1, List.cons_append]
          exact parseVal_obj_cons F '"' _ (k, v2) kvs _ rest (by decide) hx ht
    · intro xs rest hfuel
      match xs with
      | [] =>
        rw [printRest, List.nil_append]
        exact parseArrTail_close F rest
      | y :: ys =>
        rw [listFuel] at hfuel
        have hm1 := Nat.le_max_left (jsonFuel y) (listFuel ys)
        have hm2 := Nat.le_max_right (jsonFuel y) (listFuel ys)
        have hy := ihV y (printRest ys ++ (']' :: rest)) (by omega)
          (restOk_sep_arr ys rest)
        have ht := ihA ys rest (by omega)
        rw [printRest, List.cons_append, List.cons_append, List.append_assoc]
        exact parseArrTail_sep F _ y ys _ rest hy ht
    · intro k v rest hfuel hrest
      have hv := ihV v rest (by omega) hrest
      have hs := parseStrBody_esc k.data (':' :: ' ' :: (printVal v ++ rest))
      have hp := parseField_print F
        (escChars k.data ++ ('"' :: ':' :: ' ' :: (printVal v ++ rest)))
        k.data v (printVal v ++ rest) rest (by exact hs) hv
      rw [stringMk_data] at hp
      rw [printField1, List.cons_append, List.append_assoc]
      exact hp
    · intro kvs rest hfuel
      match kvs with
      | [] =>
        rw [printFieldsRest, List.nil_append]
        exact parseObjTail_close F rest
      | (k, v2) :: kvs =>
        rw [objFuel] at hfuel
        have hm1 := Nat.le_max_left (1 + jsonFuel v2) (objFuel kvs)
        have hm2 := Nat.le_max_right (1 + jsonFuel v2) (objFuel kvs)
        have hy := ihF k v2 (printFieldsRest kvs ++ ('\x7d' :: rest)) (by omega)
          (restOk_sep_obj kvs rest)
        have ht := ihO kvs rest (by omega)
        rw [printFieldsRest, List.cons_append, List.cons_append, List.append_assoc]
        exact parseObjTail_sep F _ (k, v2) kvs _ rest hy ht

/-- JSON serialize/deserialize round trip: deserializing the output of
the model of `json.dumps` yields the original value. -/
theorem Json.parse_dumps (v : Json) : Json.parse (Json.dumps v) = some v := by
  unfold Json.parse Json.dumps
  have hlen : jsonFuel v ≤ (printVal v).length + 1 :=
    ((fuelLen (sizeOf v)).1) v le_rfl
  have h := ((parsePrintAll ((String.mk (printVal v)).data.length + 1)).1) v []
    (by simp; omega) restOk_nil
  rw [List.append_nil] at h
  rw [h]

theorem fetch_data_ok {env : Env} {ec : EndpointConfig} {req : HttpRequest}
    (params : Option (List (String × String)))
    (h : buildRequest env ec = .ok req) :
    fetch_data env ec params = fetchDecode env ec req := by
  unfold fetch_data; rw [h]

theorem fetch_data_err {env : Env} {ec : EndpointConfig} {e : PyError}
    (params : Option (List (String × String)))
    (h : buildRequest env ec = .error e) :
    fetch_data env ec params = ([], .error e) := by
  unfold fetch_data; rw [h]

theorem buildRequest_unsupported {env : Env} {ec : EndpointConfig}
    (h : supportedAuth ec.auth_type = false) :
    buildRequest env ec = .error (.valueError "Unsupported authentication type") := by
  simp only [supportedAuth, Bool.or_eq_false_iff, beq_eq_false_iff_ne] at h
  unfold buildRequest
  rw [if_neg h.1.1, if_neg h.1.2, if_neg h.2]

theorem fetch_unsupported {env : Env} {ec : EndpointConfig}
    (params : Option (List (String × String)))
    (h : supportedAuth ec.auth_type = false) :
    fetch_data env ec params
      = ([], .error (.valueError "Unsupported authentication type")) :=
  fetch_data_err params (buildRequest_unsupported h)

/-- **C1** (code bug in `fetch_data`, lines 34–60): the spec says the
caller-supplied `params` are merged into the issued GET (winning on a key
collision with apikey query-param auth), but the code never passes them:
the `basic` and `oauth2` branches call `requests.get` without `params`,
and the `apikey` branch rebinds `params = None`, so the issued request
carries only the credential pair — here the caller sends
`api_key=MINE, x=1` and the request goes out with `api_key=T` alone. -/
theorem C1_fetch_discards_params :
    fetch_data env404 ecBasic (some [("x", "1")])
      = ([.request { url := "http://api.example.com/a", basicAuth := some ("u", "p") },
          .log "Error fetching data from http://api.example.com/a: 404"], .ok none)
    ∧ fetch_data env404 ecOauth (some [("x", "1")])
      = ([.request { url := "http://api.example.com/b", bearer := some "tok" },
          .log "Error fetching data from http://api.example.com/b: 404"], .ok none)
    ∧ fetch_data env404 ecApiQuery (some [("api_key", "MINE"), ("x", "1")])
      = ([.request { url := "http://api.example.com/c", params := some [("api_key", "T")] },
          .log "Error fetching data from http://api.example.com/c: 404"], .ok none) :=
  ⟨rfl, rfl, rfl⟩

/-- **C2 (counterexample)**: a batch run over an endpoint with the
unsupported auth type `digest` followed by a well-configured basic
endpoint does not skip and continue — it terminates with the uncaught
`ValueError`, and the second endpoint is never touched (no event of the
run mentions it). -/
theorem C2_counterexample :
    ingest_batch_data env404 t0 [("bad", ecBad), ("good", ecBasic)]
      = ([.fetchCall "bad" none],
         some (.valueError "Unsupported authentication type")) := rfl

/-- **C3 (counterexample)**: for an apikey endpoint whose `auth_params`
contain neither `header_key` nor `query_param`, `fetch_data` does not
fail with a configuration error: it sends an HTTP GET carrying no
credentials at all (no basic auth, no bearer, no headers, no query
params) and returns normally. -/
theorem C3_counterexample :
    fetch_data env404 ecApiNone none
      = ([.request { url := "http://api.example.com/k" },
          .log "Error fetching data from http://api.example.com/k: 404"],
         .ok none) := rfl

/-- **C3 (amended)**: for every apikey endpoint whose `auth_params`
contain neither shape, `fetch_data` builds the bare unauthenticated
request for the endpoint URL and issues it (the first event of the fetch
is that request); no configuration error is raised before sending. -/
theorem C3_neither_shape_sends_unauthenticated (env : Env) (ec : EndpointConfig)
    (params : Option (List (String × String)))
    (h1 : ec.auth_type = "apikey")
    (h2 : hasKey ec.auth_params "header_key" = false)
    (h3 : hasKey ec.auth_params "query_param" = false) :
    buildRequest env ec = .ok { url := ec.url }
    ∧ ∃ evs r, fetch_data env ec params = (Event.request { url := ec.url } :: evs, r) := by
  have hb : buildRequest env ec = .ok { url := ec.url } := by
    unfold buildRequest
    rw [h1, if_neg (by decide), if_neg (by decide), if_pos rfl,
      if_neg (by simp [h2]), if_neg (by simp [h3])]
  refine ⟨hb, ?_⟩
  rw [fetch_data_ok params hb]
  unfold fetchDecode
  split_ifs <;> first
    | exact ⟨_, _, rfl⟩
    | (split <;> exact ⟨_, _, rfl⟩)

/-- **C3 (amended) witness**: the amended statement instantiated at the
concrete shapeless apikey endpoint. -/
theorem C3_neither_shape_sends_unauthenticated_witness :
    buildRequest env404 ecApiNone = .ok { url := ecApiNone.url }
    ∧ ∃ evs r, fetch_data env404 ecApiNone none
        = (Event.request { url := ecApiNone.url } :: evs, r) :=
  C3_neither_shape_sends_unauthenticated env404 ecApiNone none rfl (by decide) (by decide)

/-- **C4** (code bug in `incremental_ingestion`, lines 145–156): a
successful cycle stores `last_run` as the *string*
`now.strftime('%Y-%m-%dT%H:%M:%S')`, but the next cycle calls
`last_run.strftime(...)` on it, which only `datetime` values support.
With `last_run` holding the string a previous successful cycle stored,
the run raises `AttributeError` before any fetch: no event is emitted
and `last_run` is left unchanged, contradicting the claim that the driver
fetches with `since = last_run` in this case. -/
theorem C4_stored_last_run_crashes :
    incremental_ingestion env404 t0 t0 [("e", ecLastRunStr)]
      = ([], some (.attributeError "str object has no attribute strftime"),
         [("e", ecLastRunStr)]) := rfl

theorem pyLen_num : pyLen (.num 5) = .error (.typeError "object has no len") := rfl

/-- **C8 (counterexample)**: `process_data` applied to the
JSON-serializable scalar payload `5` performs no storage write at all —
the `len(data)` call in its record-count print raises `TypeError` first —
so "persist writes under a key ... for every JSON-serializable payload"
fails for scalar payloads. -/
theorem C8_counterexample :
    process_data env404 t0 "users" (.num 5)
      = ([], some (.typeError "object has no len")) := rfl

theorem dictGet_ok {d : List (String × String)} {k : String}
    (h : hasKey d k = true) : ∃ v, dictGet d k = .ok v := by
  unfold hasKey at h
  obtain ⟨v, hv⟩ := Option.isSome_iff_exists.mp h
  exact ⟨v, by unfold dictGet; rw [hv]⟩

theorem buildRequest_ready (env : Env) {ec : EndpointConfig}
    (h : authReady ec = true) :
    ∃ req, buildRequest env ec = .ok req ∧ req.url = ec.url := by
  simp only [authReady, Bool.or_eq_true, Bool.and_eq_true, beq_iff_eq,
    Bool.not_eq_true'] at h
  unfold buildRequest
  rcases h with (⟨⟨h1, hu⟩, hp⟩ | ⟨⟨⟨h1, ha⟩, hb⟩, hc⟩) | ⟨h1, hshape⟩
  · obtain ⟨u, hu'⟩ := dictGet_ok hu
    obtain ⟨p, hp'⟩ := dictGet_ok hp
    rw [h1, if_pos rfl, hu', hp']
    exact ⟨_, rfl, rfl⟩
  · obtain ⟨a, ha'⟩ := dictGet_ok ha
    obtain ⟨b, hb'⟩ := dictGet_ok hb
    obtain ⟨c, hc'⟩ := dictGet_ok hc
    rw [h1, if_neg (by decide), if_pos rfl, ha', hb', hc']
    exact ⟨_, rfl, rfl⟩
  · rw [h1, if_neg (by decide), if_neg (by decide), if_pos rfl]
    rcases hshape with (⟨hh, ht⟩ | ⟨⟨hh, hq⟩, ht⟩) | ⟨hh, hq⟩
    · obtain ⟨x, hx⟩ := dictGet_ok hh
      obtain ⟨t, ht'⟩ := dictGet_ok ht
      rw [if_pos (by unfold hasKey at hh ⊢; exact hh), hx, ht']
      exact ⟨_, rfl, rfl⟩
    · obtain ⟨x, hx⟩ := dictGet_ok hq
      obtain ⟨t, ht'⟩ := dictGet_ok ht
      rw [if_neg (by simp [hh]), if_pos (by unfold hasKey at hq ⊢; exact hq), hx, ht']
      exact ⟨_, rfl, rfl⟩
    · rw [if_neg (by simp [hh]), if_neg (by simp [hq])]
      exact ⟨_, rfl, rfl⟩

/-- **C6**: for every endpoint whose auth type is supported and properly
parameterized, every declared format, and every caller params value, when
the HTTP transport answers with any status other than exactly 200,
`fetch_data` returns `None` (no exception) and its trace ends with the
diagnostic built from the endpoint URL and the status code; the
diagnostic string literally contains both. -/
theorem C6_non200_absence (env : Env) (ec : EndpointConfig)
    (params : Option (List (String × String))) (resp : HttpResponse)
    (hready : authReady ec = true)
    (hresp : ∀ req, env.http req = resp)
    (hcode : resp.status_code ≠ 200) :
    (∃ req, fetch_data env ec params
        = ([.request req, .log (errMsg ec.url resp.status_code)], .ok none))
    ∧ errMsg ec.url resp.status_code
        = "Error fetching data from " ++ ec.url ++ ": "
          ++ String.mk (printNat resp.status_code) := by
  obtain ⟨req, hreq, _⟩ := buildRequest_ready env hready
  refine ⟨⟨req, ?_⟩, rfl⟩
  rw [fetch_data_ok params hreq]
  unfold fetchDecode
  rw [hresp req, if_neg hcode]

/-- **C6 witness**: the theorem instantiated at a basic-auth endpoint
against a transport that always answers 404. -/
theorem C6_non200_absence_witness :
    (∃ req, fetch_data env404 ecBasic none
        = ([.request req, .log (errMsg ecBasic.url 404)], .ok none))
    ∧ errMsg ecBasic.url 404
        = "Error fetching data from " ++ ecBasic.url ++ ": "
          ++ String.mk (printNat 404) :=
  C6_non200_absence env404 ecBasic none ⟨404, ""⟩ (by decide) (fun _ => rfl) (by decide)

/-- **C7**: for every properly parameterized endpoint and a transport
answering status 200: with `format = json` the decoded JSON value of the
body is returned; with `format = xml` the raw body text is returned
unchanged; with any other format value `fetch_data` returns `None`. -/
theorem C7_success_formats (env : Env) (ec : EndpointConfig)
    (params : Option (List (String × String))) (resp : HttpResponse)
    (hready : authReady ec = true)
    (hresp : ∀ req, env.http req = resp)
    (hcode : resp.status_code = 200) :
    (ec.format = some "json" → ∀ v, Json.parse resp.text = some v →
      (fetch_data env ec params).2 = .ok (some v))
    ∧ (ec.format = some "xml" →
      (fetch_data env ec params).2 = .ok (some (.str resp.text)))
    ∧ (ec.format ≠ some "json" → ec.format ≠ some "xml" →
      (fetch_data env ec params).2 = .ok none) := by
  obtain ⟨req, hreq, _⟩ := buildRequest_ready env hready
  rw [fetch_data_ok params hreq]
  unfold fetchDecode
  rw [hresp req, if_pos hcode]
  refine ⟨?_, ?_, ?_⟩
  · intro hf v hv
    rw [if_pos hf, hv]
  · intro hf
    by_cases hj : ec.format = some "json"
    · rw [hf] at hj; exact absurd hj (by decide)
    · rw [if_neg hj, if_pos hf]
  · intro hj hx
    rw [if_neg hj, if_neg hx]

/-- **C7 witness**: against a transport answering 200 with body `[1]`,
the JSON-format endpoint yields the decoded array `[1]`. -/
theorem C7_success_formats_witness :
    (fetch_data envOk ecBasic none).2 = .ok (some (.arr [.num 1])) :=
  (C7_success_formats envOk ecBasic none ⟨200, "[1]"⟩ (by decide)
    (fun _ => rfl) rfl).1 rfl (.arr [.num 1]) rfl

theorem process_data_ok (env : Env) (nowUtc : DateTime) (endpoint : String)
    (data : Json) (n : Nat) (h : pyLen data = .ok n) :
    process_data env nowUtc endpoint data
      = ([.log ("Processing data from " ++ endpoint ++ ": "
            ++ String.mk (printNat n) ++ " records"),
          .persist (endpoint ++ "/" ++ fmtTimestamp nowUtc ++ ".json")
            (Json.dumps data),
          .log ("Successfully uploaded "
            ++ (endpoint ++ "/" ++ fmtTimestamp nowUtc ++ ".json")
            ++ " to S3 bucket " ++ env.bucket)], none) := by
  unfold process_data upload_to_s3
  rw [h]

theorem isTimestampShape_fmt (t : DateTime) :
    isTimestampShape (fmtTimestamp t) = true := by
  show isTimestampShape (String.mk _) = true
  unfold isTimestampShape pad4 pad2
  simp only [List.cons_append, List.nil_append]
  have h45 : ∀ k, dchar k ≠ '-' := by
    intro k
    refine char_ne_of_toNat_ne ?_
    rw [dchar_toNat]
    have : ('-').toNat = 45 := rfl
    have hk : k % 10 < 10 := Nat.mod_lt _ (by omega)
    omega
  simp [isDig_dchar]

/-- **C8 (amended)**: for every endpoint name, every timestamp and every
JSON payload on which Python `len` is defined (strings, arrays,
objects), `process_data` performs exactly one storage write, under the
key `{endpoint}/{YYYY-MM-DD_HH-MM-SS}.json` formatted from the UTC
instant (whose timestamp part matches the all-digit shape), with the
`json.dumps` serialization of the payload as body — and deserializing
that body yields the original payload. -/
theorem C8_persist_key_roundtrip (env : Env) (nowUtc : DateTime)
    (endpoint : String) (data : Json) (n : Nat) (h : pyLen data = .ok n) :
    process_data env nowUtc endpoint data
      = ([.log ("Processing data from " ++ endpoint ++ ": "
            ++ String.mk (printNat n) ++ " records"),
          .persist (endpoint ++ "/" ++ fmtTimestamp nowUtc ++ ".json")
            (Json.dumps data),
          .log ("Successfully uploaded "
            ++ (endpoint ++ "/" ++ fmtTimestamp nowUtc ++ ".json")
            ++ " to S3 bucket " ++ env.bucket)], none)
    ∧ isTimestampShape (fmtTimestamp nowUtc) = true
    ∧ Json.parse (Json.dumps data) = some data :=
  ⟨process_data_ok env nowUtc endpoint data n h, isTimestampShape_fmt nowUtc,
    Json.parse_dumps data⟩

/-- **C8 (amended) witness**: the statement instantiated at the payload
`[1]` and the instant 2025-06-02 12:00:00. -/
theorem C8_persist_key_roundtrip_witness :
    process_data env404 t0 "users" (.arr [.num 1])
      = ([.log ("Processing data from " ++ "users" ++ ": "
            ++ String.mk (printNat 1) ++ " records"),
          .persist ("users" ++ "/" ++ fmtTimestamp t0 ++ ".json")
            (Json.dumps (.arr [.num 1])),
          .log ("Successfully uploaded "
            ++ ("users" ++ "/" ++ fmtTimestamp t0 ++ ".json")
            ++ " to S3 bucket " ++ env404.bucket)], none)
    ∧ isTimestampShape (fmtTimestamp t0) = true
    ∧ Json.parse (Json.dumps (.arr [.num 1])) = some (.arr [.num 1]) :=
  C8_persist_key_roundtrip env404 t0 "users" (.arr [.num 1]) 1 rfl

theorem batch_head_error {env : Env} {nowUtc : DateTime} {name : String}
    {ec : EndpointConfig} {evs : List Event} {e : PyError}
    (h : batchEndpoint env nowUtc name ec = (evs, some e))
    (rest : List (String × EndpointConfig)) :
    ingest_batch_data env nowUtc ((name, ec) :: rest) = (evs, some e) := by
  simp only [ingest_batch_data]
  rw [h]

theorem batch_head_ok {env : Env} {nowUtc : DateTime} {name : String}
    {ec : EndpointConfig}
    (h : (batchEndpoint env nowUtc name ec).2 = none)
    (rest : List (String × EndpointConfig)) :
    ingest_batch_data env nowUtc ((name, ec) :: rest)
      = ((batchEndpoint env nowUtc name ec).1
          ++ (ingest_batch_data env nowUtc rest).1,
         (ingest_batch_data env nowUtc rest).2) := by
  cases hbe : batchEndpoint env nowUtc name ec with
  | mk evs err =>
    rw [hbe] at h
    cases err with
    | some e => exact absurd h (by simp)
    | none =>
      simp only [ingest_batch_data]
      rw [hbe]

theorem batchEndpoint_unsupported (env : Env) (nowUtc : DateTime)
    (name : String) {ec : EndpointConfig}
    (h : supportedAuth ec.auth_type = false) :
    batchEndpoint env nowUtc name ec
      = ([.fetchCall name none],
         some (.valueError "Unsupported authentication type")) := by
  unfold batchEndpoint
  rw [fetch_unsupported none h]

/-- **C2 (amended)**: an endpoint whose `auth_type` is unsupported makes
`fetch_data` raise `ValueError('Unsupported authentication type')`, which
no driver catches: the batch run's entire output is independent of
whatever endpoints are configured after the offender (they are never
processed), and the run terminates with an uncaught error instead of
skipping and continuing. -/
theorem C2_unsupported_aborts_run (env : Env) (nowUtc : DateTime)
    (name : String) (ec : EndpointConfig)
    (h : supportedAuth ec.auth_type = false) :
    ∀ pre post post2,
      ingest_batch_data env nowUtc (pre ++ (name, ec) :: post)
        = ingest_batch_data env nowUtc (pre ++ (name, ec) :: post2)
      ∧ (ingest_batch_data env nowUtc (pre ++ (name, ec) :: post)).2.isSome = true := by
  have hbe := batchEndpoint_unsupported env nowUtc name h
  intro pre
  induction pre with
  | nil =>
    intro post post2
    rw [List.nil_append, List.nil_append, batch_head_error hbe post,
      batch_head_error hbe post2]
    exact ⟨rfl, rfl⟩
  | cons hd tl ih =>
    intro post post2
    obtain ⟨n2, e2⟩ := hd
    rw [List.cons_append, List.cons_append]
    cases he : (batchEndpoint env nowUtc n2 e2).2 with
    | some e =>
      have h2 : batchEndpoint env nowUtc n2 e2
          = ((batchEndpoint env nowUtc n2 e2).1, some e) := by
        rw [← he]
      rw [batch_head_error h2 (tl ++ (name, ec) :: post),
        batch_head_error h2 (tl ++ (name, ec) :: post2)]
      exact ⟨rfl, rfl⟩
    | none =>
      obtain ⟨ih1, ih2⟩ := ih post post2
      rw [batch_head_ok he (tl ++ (name, ec) :: post),
        batch_head_ok he (tl ++ (name, ec) :: post2), ih1]
      refine ⟨rfl, ?_⟩
      rw [← ih1]
      exact ih2

/-- **C2 (amended) witness**: with a good endpoint before the offender
and different endpoint lists after it, the two runs coincide and end in
an error. -/
theorem C2_unsupported_aborts_run_witness :
    ingest_batch_data env404 t0 ([("good", ecBasic)] ++ ("bad", ecBad) :: [("after", ecBasic)])
      = ingest_batch_data env404 t0 ([("good", ecBasic)] ++ ("bad", ecBad) :: [])
    ∧ (ingest_batch_data env404 t0
        ([("good", ecBasic)] ++ ("bad", ecBad) :: [("after", ecBasic)])).2.isSome = true :=
  C2_unsupported_aborts_run env404 t0 "bad" ecBad (by decide)
    [("good", ecBasic)] [("after", ecBasic)] []

theorem hist_head_error {env : Env} {now nowUtc : DateTime} {name : String}
    {ec : EndpointConfig} {evs : List Event} {e : PyError}
    (h : histEndpoint env now nowUtc name ec = (evs, some e))
    (rest : List (String × EndpointConfig)) :
    ingest_historical_data env now nowUtc ((name, ec) :: rest) = (evs, some e) := by
  simp only [ingest_historical_data]
  rw [h]

theorem hist_head_ok {env : Env} {now nowUtc : DateTime} {name : String}
    {ec : EndpointConfig}
    (h : (histEndpoint env now nowUtc name ec).2 = none)
    (rest : List (String × EndpointConfig)) :
    ingest_historical_data env now nowUtc ((name, ec) :: rest)
      = ((histEndpoint env now nowUtc name ec).1
          ++ (ingest_historical_data env now nowUtc rest).1,
         (ingest_historical_data env now nowUtc rest).2) := by
  cases hbe : histEndpoint env now nowUtc name ec with
  | mk evs err =>
    rw [hbe] at h
    cases err with
    | some e => exact absurd h (by simp)
    | none =>
      simp only [ingest_historical_data]
      rw [hbe]

theorem histEndpoint_noStart (env : Env) (now nowUtc : DateTime)
    (name : String) {ec : EndpointConfig} (h : ec.start_date = none) :
    histEndpoint env now nowUtc name ec
      = ([], some (.typeError "comparison not supported between NoneType and str")) := by
  unfold histEndpoint
  rw [h]

/-- **C10**: an endpoint without `start_date` makes the historical
driver's loop condition compare `None <= str`, an uncaught `TypeError`
raised before any fetch for that endpoint: provided the endpoints before
it complete cleanly, the whole run's events are exactly theirs (nothing
for the offender, nothing for any endpoint configured after it) and the
run terminates with the `TypeError`. -/
theorem C10_missing_start_date_aborts (env : Env) (now nowUtc : DateTime)
    (name : String) (ec : EndpointConfig) (h : ec.start_date = none) :
    ∀ pre post, (ingest_historical_data env now nowUtc pre).2 = none →
      ingest_historical_data env now nowUtc (pre ++ (name, ec) :: post)
        = ((ingest_historical_data env now nowUtc pre).1,
           some (.typeError "comparison not supported between NoneType and str")) := by
  have hbe := histEndpoint_noStart env now nowUtc name h
  intro pre
  induction pre with
  | nil =>
    intro post _
    rw [List.nil_append, hist_head_error hbe post]
    rfl
  | cons hd tl ih =>
    intro post hpre
    obtain ⟨n2, e2⟩ := hd
    rw [List.cons_append]
    cases he : (histEndpoint env now nowUtc n2 e2).2 with
    | some e =>
      exfalso
      have h2 : histEndpoint env now nowUtc n2 e2
          = ((histEndpoint env now nowUtc n2 e2).1, some e) := by rw [← he]
      rw [hist_head_error h2 tl] at hpre
      cases hpre
    | none =>
      have hrest : (ingest_historical_data env now nowUtc tl).2 = none := by
        rw [hist_head_ok he tl] at hpre
        exact hpre
      rw [hist_head_ok he (tl ++ (name, ec) :: post), ih post hrest,
        hist_head_ok he tl]

/-- **C10 witness**: a run over a clean basic endpoint followed by an
endpoint without `start_date` and a further endpoint: only the first
endpoint's events appear and the run ends with the `TypeError`. -/
theorem C10_missing_start_date_aborts_witness :
    ingest_historical_data env404 t0 t0
        ([("h", ecHist)] ++ ("n", ecNoStart) :: [("after", ecHist)])
      = ((ingest_historical_data env404 t0 t0 [("h", ecHist)]).1,
         some (.typeError "comparison not supported between NoneType and str")) :=
  C10_missing_start_date_aborts env404 t0 t0 "n" ecNoStart rfl
    [("h", ecHist)] [("after", ecHist)] (by decide)

theorem fetchDecode_no_persist (env : Env) (ec : EndpointConfig)
    (req : HttpRequest) (k b : String) :
    Event.persist k b ∉ (fetchDecode env ec req).1 := by
  unfold fetchDecode
  split_ifs <;> first
    | simp
    | (split <;> simp)

theorem fetch_no_persist (env : Env) (ec : EndpointConfig)
    (p : Option (List (String × String))) (k b : String) :
    Event.persist k b ∉ (fetch_data env ec p).1 := by
  unfold fetch_data
  cases hb : buildRequest env ec with
  | error e => simp
  | ok req => exact fetchDecode_no_persist env ec req k b

theorem process_persist_body {env : Env} {nowUtc : DateTime} {name : String}
    {j : Json} {k b : String}
    (hm : Event.persist k b ∈ (process_data env nowUtc name j).1) :
    b = Json.dumps j := by
  unfold process_data at hm
  cases hl : pyLen j with
  | error e => rw [hl] at hm; simp at hm
  | ok n =>
    rw [hl] at hm
    unfold upload_to_s3 at hm
    simp at hm
    exact hm.2

theorem persistStep_persist (env : Env) (nowUtc : DateTime) (name : String)
    (odata : Option Json) {k b : String}
    (hm : Event.persist k b ∈ (persistStep env nowUtc name odata).1) :
    ∃ v, pyTruthy v = true ∧ b = Json.dumps v := by
  cases odata with
  | none => unfold persistStep at hm; simp at hm
  | some j =>
    have hps : persistStep env nowUtc name (some j)
        = if pyTruthy j = true then process_data env nowUtc name j
          else ([], none) := rfl
    rw [hps] at hm
    by_cases ht : pyTruthy j = true
    · rw [if_pos ht] at hm
      exact ⟨j, ht, process_persist_body hm⟩
    · rw [if_neg ht] at hm
      simp at hm

theorem batchEndpoint_persist {env : Env} {nowUtc : DateTime} {name : String}
    {ec : EndpointConfig} {k b : String}
    (hm : Event.persist k b ∈ (batchEndpoint env nowUtc name ec).1) :
    ∃ v, pyTruthy v = true ∧ b = Json.dumps v := by
  unfold batchEndpoint at hm
  cases hf : fetch_data env ec none with
  | mk fevs fres =>
    simp only [hf] at hm
    cases fres with
    | error e =>
      simp at hm
      have hmem : Event.persist k b ∈ (fetch_data env ec none).1 := by
        rw [hf]; exact hm
      exact absurd hmem (fetch_no_persist env ec none k b)
    | ok odata =>
      cases hp : persistStep env nowUtc name odata with
      | mk pevs perr =>
        simp only [hp] at hm
        simp at hm
        rcases hm with hm | hm
        · have hmem : Event.persist k b ∈ (fetch_data env ec none).1 := by
            rw [hf]; exact hm
          exact absurd hmem (fetch_no_persist env ec none k b)
        · refine persistStep_persist env nowUtc name odata (k := k) ?_
          rw [hp]
          exact hm

theorem batch_persists (env : Env) (nowUtc : DateTime) :
    ∀ eps k b, Event.persist k b ∈ (ingest_batch_data env nowUtc eps).1 →
      ∃ v, pyTruthy v = true ∧ b = Json.dumps v := by
  intro eps
  induction eps with
  | nil => intro k b hm; unfold ingest_batch_data at hm; simp at hm
  | cons hd tl ih =>
    obtain ⟨name, ec⟩ := hd
    intro k b hm
    rcases hbe : batchEndpoint env nowUtc name ec with ⟨evs, err⟩
    cases err with
    | some e =>
      rw [batch_head_error hbe tl] at hm
      exact batchEndpoint_persist (by rw [hbe]; exact hm)
    | none =>
      rw [batch_head_ok (by rw [hbe]) tl] at hm
      rcases List.mem_append.mp hm with hm | hm
      · exact batchEndpoint_persist hm
      · exact ih k b hm

theorem histLoop_persist (env : Env) (nowUtc : DateTime) (name : String)
    (ec : EndpointConfig) :
    ∀ fuel s e k b, Event.persist k b ∈ (histLoop env nowUtc name ec fuel s e).1 →
      ∃ v, pyTruthy v = true ∧ b = Json.dumps v := by
  intro fuel
  induction fuel with
  | zero => intro s e k b hm; unfold histLoop at hm; simp at hm
  | succ fuel ih =>
    intro s e k b hm
    unfold histLoop at hm
    by_cases hle : pyStrLe s e = true
    · rw [if_pos hle] at hm
      rcases hf : fetch_data env ec (some [("date", s)]) with ⟨fevs, fres⟩
      simp only [hf] at hm
      cases fres with
      | error er =>
        simp at hm
        exact absurd (show Event.persist k b ∈ (fetch_data env ec (some [("date", s)])).1
          from by rw [hf]; exact hm) (fetch_no_persist env ec _ k b)
      | ok odata =>
        rcases hp : persistStep env nowUtc name odata with ⟨pevs, perr⟩
        simp only [hp] at hm
        have hpv : Event.persist k b ∈ pevs →
            ∃ v, pyTruthy v = true ∧ b = Json.dumps v := by
          intro h2
          exact persistStep_persist env nowUtc name odata (k := k) (by rw [hp]; exact h2)
        have hfv : Event.persist k b ∈ fevs → False := by
          intro h2
          exact absurd (show Event.persist k b ∈ (fetch_data env ec (some [("date", s)])).1
            from by rw [hf]; exact h2) (fetch_no_persist env ec _ k b)
        cases perr with
        | some er =>
          simp at hm
          rcases hm with hm | hm
          · exact absurd hm hfv
          · exact hpv hm
        | none =>
          cases hd : parseDate s with
          | error er =>
            simp only [hd] at hm
            simp at hm
            rcases hm with hm | hm
            · exact absurd hm hfv
            · exact hpv hm
          | ok d =>
            simp only [hd] at hm
            rcases hr : histLoop env nowUtc name ec fuel (fmtDate (nextDay d)) e
              with ⟨revs, rerr⟩
            simp only [hr] at hm
            simp at hm
            rcases hm with hm | hm | hm
            · exact absurd hm hfv
            · exact hpv hm
            · exact ih (fmtDate (nextDay d)) e k b (by rw [hr]; exact hm)
    · rw [if_neg hle] at hm
      simp at hm

theorem histEndpoint_persist {env : Env} {now nowUtc : DateTime} {name : String}
    {ec : EndpointConfig} {k b : String}
    (hm : Event.persist k b ∈ (histEndpoint env now nowUtc name ec).1) :
    ∃ v, pyTruthy v = true ∧ b = Json.dumps v := by
  unfold histEndpoint at hm
  cases hs : ec.start_date with
  | none => simp only [hs] at hm; simp at hm
  | some s =>
    simp only [hs] at hm
    exact histLoop_persist env nowUtc name ec HISTFUEL s _ k b hm

theorem hist_persists (env : Env) (now nowUtc : DateTime) :
    ∀ eps k b, Event.persist k b ∈ (ingest_historical_data env now nowUtc eps).1 →
      ∃ v, pyTruthy v = true ∧ b = Json.dumps v := by
  intro eps
  induction eps with
  | nil => intro k b hm; unfold ingest_historical_data at hm; simp at hm
  | cons hd tl ih =>
    obtain ⟨name, ec⟩ := hd
    intro k b hm
    rcases hbe : histEndpoint env now nowUtc name ec with ⟨evs, err⟩
    cases err with
    | some e =>
      rw [hist_head_error hbe tl] at hm
      exact histEndpoint_persist (by rw [hbe]; exact hm)
    | none =>
      rw [hist_head_ok (by rw [hbe]) tl] at hm
      rcases List.mem_append.mp hm with hm | hm
      · exact histEndpoint_persist hm
      · exact ih k b hm

theorem incEndpoint_persist (env : Env) (now nowUtc : DateTime) (name : String)
    (ec : EndpointConfig) {k b : String}
    (hm : Event.persist k b ∈ (incEndpoint env now nowUtc name ec).1) :
    ∃ v, pyTruthy v = true ∧ b = Json.dumps v := by
  unfold incEndpoint at hm
  cases hl : lastRunStrftime (ec.last_run.getD (.dt (prevDay now))) with
  | error e => simp only [hl] at hm; simp at hm
  | ok since =>
    simp only [hl] at hm
    rcases hf : fetch_data env ec (some [("since", since)]) with ⟨fevs, fres⟩
    simp only [hf] at hm
    have hfv : Event.persist k b ∈ fevs → False := by
      intro h2
      exact absurd (show Event.persist k b ∈ (fetch_data env ec (some [("since", since)])).1
        from by rw [hf]; exact h2) (fetch_no_persist env ec _ k b)
    cases fres with
    | error e =>
      simp at hm
      exact absurd hm hfv
    | ok odata =>
      cases odata with
      | none => simp at hm; exact absurd hm hfv
      | some j =>
        rcases hp : process_data env nowUtc name j with ⟨pevs, perr⟩
        by_cases ht : pyTruthy j = true
        · have hpv : Event.persist k b ∈ pevs →
              ∃ v, pyTruthy v = true ∧ b = Json.dumps v := by
            intro h2
            exact ⟨j, ht, process_persist_body (by rw [hp]; exact h2)⟩
          cases perr with
          | some e =>
            simp [ht, hp] at hm
            rcases hm with hm | hm
            · exact absurd hm hfv
            · exact hpv hm
          | none =>
            simp [ht, hp] at hm
            rcases hm with hm | hm
            · exact absurd hm hfv
            · exact hpv hm
        · simp [ht] at hm
          exact absurd hm hfv

theorem inc_persists (env : Env) (now nowUtc : DateTime) :
    ∀ eps k b, Event.persist k b ∈ (incremental_ingestion env now nowUtc eps).1 →
      ∃ v, pyTruthy v = true ∧ b = Json.dumps v := by
  intro eps
  induction eps with
  | nil => intro k b hm; unfold incremental_ingestion at hm; simp at hm
  | cons hd tl ih =>
    obtain ⟨name, ec⟩ := hd
    intro k b hm
    unfold incremental_ingestion at hm
    rcases hbe : incEndpoint env now nowUtc name ec with ⟨evs, err, ec2⟩
    simp only [hbe] at hm
    cases err with
    | some e =>
      simp at hm
      exact incEndpoint_persist env now nowUtc name ec (by rw [hbe]; exact hm)
    | none =>
      rcases hr : incremental_ingestion env now nowUtc tl with ⟨revs, rerr, rest2⟩
      simp only [hr] at hm
      simp at hm
      rcases hm with hm | hm
      · exact incEndpoint_persist env now nowUtc name ec (by rw [hbe]; exact hm)
      · exact ih k b (by rw [hr]; exact hm)

/-- **C9**: in all three drivers, persistence is gated on Python
truthiness of the fetched value: every object-storage write that occurs
in any run stores the serialization of a *truthy* payload (and that body
deserializes back to it); consequently a fetch that returns a falsy
payload — empty array, empty object, empty string, `None` — is never
persisted. -/
theorem C9_truthiness_gate (env : Env) (now nowUtc : DateTime)
    (eps : List (String × EndpointConfig)) (k b : String) :
    (Event.persist k b ∈ (ingest_batch_data env nowUtc eps).1 →
      ∃ v, pyTruthy v = true ∧ b = Json.dumps v ∧ Json.parse b = some v)
    ∧ (Event.persist k b ∈ (ingest_historical_data env now nowUtc eps).1 →
      ∃ v, pyTruthy v = true ∧ b = Json.dumps v ∧ Json.parse b = some v)
    ∧ (Event.persist k b ∈ (incremental_ingestion env now nowUtc eps).1 →
      ∃ v, pyTruthy v = true ∧ b = Json.dumps v ∧ Json.parse b = some v) := by
  refine ⟨?_, ?_, ?_⟩ <;> intro hm
  · obtain ⟨v, ht, hb⟩ := batch_persists env nowUtc eps k b hm
    exact ⟨v, ht, hb, by rw [hb]; exact Json.parse_dumps v⟩
  · obtain ⟨v, ht, hb⟩ := hist_persists env now nowUtc eps k b hm
    exact ⟨v, ht, hb, by rw [hb]; exact Json.parse_dumps v⟩
  · obtain ⟨v, ht, hb⟩ := inc_persists env now nowUtc eps k b hm
    exact ⟨v, ht, hb, by rw [hb]; exact Json.parse_dumps v⟩

/-- **C9 witness**: a concrete batch run against a transport answering
200 with body `[1]` does persist, and the theorem yields the truthy
payload whose serialization was stored. -/
theorem C9_truthiness_gate_witness :
    ∃ v, pyTruthy v = true ∧ Json.dumps (.arr [.num 1]) = Json.dumps v
      ∧ Json.parse (Json.dumps (.arr [.num 1])) = some v :=
  (C9_truthiness_gate envOk t0 t0 [("e", ecBasic)]
      ("e" ++ "/" ++ fmtTimestamp t0 ++ ".json") (Json.dumps (.arr [.num 1]))).1
    (by
      rw [show ingest_batch_data envOk t0 [("e", ecBasic)]
        = ([Event.fetchCall "e" none,
            Event.request { url := "http://api.example.com/a", basicAuth := some ("u", "p") },
            Event.log ("Processing data from " ++ "e" ++ ": "
              ++ String.mk (printNat 1) ++ " records"),
            Event.persist ("e" ++ "/" ++ fmtTimestamp t0 ++ ".json")
              (Json.dumps (.arr [.num 1])),
            Event.log ("Successfully uploaded "
              ++ ("e" ++ "/" ++ fmtTimestamp t0 ++ ".json")
              ++ " to S3 bucket " ++ envOk.bucket)], none) from rfl]
      simp)

theorem daysInMonth_pos (y m : Nat) : 1 ≤ daysInMonth y m := by
  unfold daysInMonth
  split_ifs <;> omega

theorem daysInMonth_le31 (y m : Nat) : daysInMonth y m ≤ 31 := by
  unfold daysInMonth
  split_ifs <;> omega

theorem validDate_bounds {t : DateTime} (h : validDate t = true) :
    1 ≤ t.month ∧ t.month ≤ 12 ∧ 1 ≤ t.day ∧ t.day ≤ 31 ∧ t.year ≤ 9999
      ∧ t.day ≤ daysInMonth t.year t.month := by
  unfold validDate at h
  simp only [Bool.and_eq_true, decide_eq_true_eq] at h
  have h31 := daysInMonth_le31 t.year t.month
  omega

theorem data_mk (l : List Char) : (String.mk l).data = l := rfl

theorem lexLe_dig_cons (x y : Nat) (as bs : List Char) :
    lexLe (dchar x :: as) (dchar y :: bs)
      = (if x % 10 < y % 10 then true
         else if y % 10 < x % 10 then false
         else lexLe as bs) := by
  simp only [lexLe, dchar_toNat]
  split_ifs <;> first | rfl | omega

theorem lexLe_dash_cons (as bs : List Char) :
    lexLe ('-' :: as) ('-' :: bs) = lexLe as bs := by
  simp [lexLe]

theorem lexLe_pad2_cons (x y : Nat) (hx : x ≤ 99) (hy : y ≤ 99)
    (as bs : List Char) :
    lexLe (dchar (x / 10) :: dchar x :: as) (dchar (y / 10) :: dchar y :: bs)
      = (if x < y then true else if y < x then false else lexLe as bs) := by
  simp only [lexLe_dig_cons]
  split_ifs <;> first | rfl | (exfalso; omega)

theorem lexLe_pad4_cons (x y : Nat) (hx : x ≤ 9999) (hy : y ≤ 9999)
    (as bs : List Char) :
    lexLe (dchar (x / 1000) :: dchar (x / 100) :: dchar (x / 10) :: dchar x :: as)
        (dchar (y / 1000) :: dchar (y / 100) :: dchar (y / 10) :: dchar y :: bs)
      = (if x < y then true else if y < x then false else lexLe as bs) := by
  simp only [lexLe_dig_cons]
  split_ifs <;> first | rfl | (exfalso; omega)

theorem lexLe_nil : lexLe [] [] = true := rfl

theorem pyStrLe_fmtDate (a b : DateTime) (ha : validDate a = true)
    (hb : validDate b = true) :
    pyStrLe (fmtDate a) (fmtDate b) = dateLeB a b := by
  obtain ⟨ha1, ha2, ha3, ha4, ha5, ha6⟩ := validDate_bounds ha
  obtain ⟨hb1, hb2, hb3, hb4, hb5, hb6⟩ := validDate_bounds hb
  unfold pyStrLe fmtDate
  rw [data_mk, data_mk]
  unfold pad4 pad2
  simp only [List.cons_append, List.nil_append, List.append_assoc]
  rw [lexLe_pad4_cons a.year b.year ha5 hb5, lexLe_dash_cons,
    lexLe_pad2_cons a.month b.month (by omega) (by omega), lexLe_dash_cons,
    lexLe_pad2_cons a.day b.day (by omega) (by omega), lexLe_nil]
  unfold dateLeB
  split_ifs <;> first
    | rfl
    | (exfalso; omega)
    | (symm; simp only [decide_eq_true_eq, decide_eq_false_iff_not]; omega)

theorem valNum_pad4d (y : Nat) (h : y ≤ 9999) :
    valNum [dchar (y / 1000), dchar (y / 100), dchar (y / 10), dchar y] = y := by
  simp [valNum, dchar_toNat]
  omega

theorem valNum_pad2d (m : Nat) (h : m ≤ 99) :
    valNum [dchar (m / 10), dchar m] = m := by
  simp [valNum, dchar_toNat]
  omega

theorem parseDate_fmtDate (d : DateTime) (h : validDate d = true) :
    parseDate (fmtDate d) = .ok ⟨d.year, d.month, d.day, 0, 0, 0⟩ := by
  obtain ⟨h1, h2, h3, h4, h5, h6⟩ := validDate_bounds h
  have hdata : (fmtDate d).data
      = [dchar (d.year / 1000), dchar (d.year / 100), dchar (d.year / 10),
         dchar d.year, '-', dchar (d.month / 10), dchar d.month, '-',
         dchar (d.day / 10), dchar d.day] := by
    unfold fmtDate pad4 pad2
    rw [data_mk]
    simp
  unfold parseDate
  rw [hdata]
  simp only [isDig_dchar, Bool.and_self, Bool.and_true, Bool.true_and, if_true]
  rw [valNum_pad4d d.year h5, valNum_pad2d d.month (by omega), valNum_pad2d d.day (by omega)]
  rw [if_pos (by simp only [Bool.and_eq_true, decide_eq_true_eq]; omega)]

theorem dchar_mod_eq {v : Nat} {c : Char} (hc : isDig c = true)
    (hv : v % 10 = c.toNat - 48) : dchar v = c := by
  have hb := isDig_toNat hc
  unfold dchar
  rw [hv, show 48 + (c.toNat - 48) = c.toNat from by omega]
  exact Char.ofNat_toNat c

theorem parseDate_canonical {s : String} {d : DateTime}
    (h : parseDate s = .ok d) :
    s = fmtDate d ∧ validDate d = true
      ∧ d.hour = 0 ∧ d.minute = 0 ∧ d.second = 0 := by
  unfold parseDate at h
  split at h
  case _ y1 y2 y3 y4 m1 m2 d1 d2 heq =>
    split_ifs at h with hdig
    dsimp only at h
    split_ifs at h with hrange
    injection h with h2
    subst h2
    simp only [Bool.and_eq_true] at hdig hrange
    obtain ⟨⟨⟨⟨⟨⟨⟨hy1, hy2⟩, hy3⟩, hy4⟩, hm1⟩, hm2⟩, hd1⟩, hd2⟩ := hdig
    simp only [decide_eq_true_eq] at hrange
    obtain ⟨⟨⟨hr1, hr2⟩, hr3⟩, hr4⟩ := hrange
    have hv4 : valNum [y1, y2, y3, y4]
        = (((y1.toNat - 48) * 10 + (y2.toNat - 48)) * 10 + (y3.toNat - 48)) * 10
          + (y4.toNat - 48) := by simp [valNum]
    have hvm : valNum [m1, m2] = (m1.toNat - 48) * 10 + (m2.toNat - 48) := by
      simp [valNum]
    have hvd : valNum [d1, d2] = (d1.toNat - 48) * 10 + (d2.toNat - 48) := by
      simp [valNum]
    have hb1 := isDig_toNat hy1
    have hb2 := isDig_toNat hy2
    have hb3 := isDig_toNat hy3
    have hb4 := isDig_toNat hy4
    have hbm1 := isDig_toNat hm1
    have hbm2 := isDig_toNat hm2
    have hbd1 := isDig_toNat hd1
    have hbd2 := isDig_toNat hd2
    refine ⟨?_, ?_, rfl, rfl, rfl⟩
    · rw [← stringMk_data s, heq]
      unfold fmtDate pad4 pad2
      simp only [data_mk, List.cons_append, List.nil_append]
      rw [dchar_mod_eq hy1 (by rw [hv4]; omega),
        dchar_mod_eq hy2 (by rw [hv4]; omega),
        dchar_mod_eq hy3 (by rw [hv4]; omega),
        dchar_mod_eq hy4 (by rw [hv4]; omega),
        dchar_mod_eq hm1 (by rw [hvm]; omega),
        dchar_mod_eq hm2 (by rw [hvm]; omega),
        dchar_mod_eq hd1 (by rw [hvd]; omega),
        dchar_mod_eq hd2 (by rw [hvd]; omega)]
    · simp only [validDate, Bool.and_eq_true, decide_eq_true_eq]
      exact ⟨⟨⟨⟨hr1, hr2⟩, hr3⟩, hr4⟩, by omega⟩
  case _ => simp at h

theorem nextDay_valid {t : DateTime} (h : validDate t = true)
    (hy : t.year ≤ 9998) : validDate (nextDay t) = true := by
  obtain ⟨h1, h2, h3, h4, h5, h6⟩ := validDate_bounds h
  unfold nextDay
  split_ifs with c1 c2 <;>
    simp only [validDate, Bool.and_eq_true, decide_eq_true_eq]
  · exact ⟨⟨⟨⟨h1, h2⟩, by omega⟩, by omega⟩, by omega⟩
  · have := daysInMonth_pos t.year (t.month + 1)
    exact ⟨⟨⟨⟨by omega, by omega⟩, by omega⟩, by omega⟩, by omega⟩
  · have := daysInMonth_pos (t.year + 1) 1
    exact ⟨⟨⟨⟨by omega, by omega⟩, by omega⟩, by omega⟩, by omega⟩

theorem nextDay_time (t : DateTime) :
    (nextDay t).hour = t.hour ∧ (nextDay t).minute = t.minute
      ∧ (nextDay t).second = t.second := by
  unfold nextDay
  split_ifs <;> exact ⟨rfl, rfl, rfl⟩

theorem dateOrd_nextDay {t : DateTime} (h : validDate t = true) :
    dateOrd t < dateOrd (nextDay t) := by
  obtain ⟨h1, h2, h3, h4, h5, h6⟩ := validDate_bounds h
  unfold nextDay
  split_ifs with c1 c2 <;> (unfold dateOrd; simp only []; omega)

theorem dateOrd_mono {a b : DateTime} (ha : validDate a = true)
    (hb : validDate b = true) (h : dateLeB a b = true) :
    dateOrd a ≤ dateOrd b := by
  obtain ⟨ha1, ha2, ha3, ha4, ha5, ha6⟩ := validDate_bounds ha
  obtain ⟨hb1, hb2, hb3, hb4, hb5, hb6⟩ := validDate_bounds hb
  unfold dateLeB at h
  unfold dateOrd
  split_ifs at h <;> first
    | omega
    | (simp only [decide_eq_true_eq] at h; omega)
    | (exact absurd h (by simp))

theorem dateLeB_year {a b : DateTime} (h : dateLeB a b = true) :
    a.year ≤ b.year := by
  unfold dateLeB at h
  split_ifs at h <;> first | omega | (exact absurd h (by simp))

theorem dateListF_irrel (b : DateTime) (hb : validDate b = true)
    (hy : b.year ≤ 9998) :
    ∀ f1 f2 a, validDate a = true → daysBound a b ≤ f1 → daysBound a b ≤ f2 →
      dateListF f1 a b = dateListF f2 a b := by
  intro f1
  induction f1 with
  | zero =>
    intro f2 a ha h1 h2
    have hle : dateLeB a b = false := by
      cases hd : dateLeB a b with
      | false => rfl
      | true =>
        have := dateOrd_mono ha hb hd
        unfold daysBound at h1
        omega
    rw [dateListF]
    cases f2 with
    | zero => rw [dateListF]
    | succ f2 => rw [dateListF, hle]; simp
  | succ f1 ih =>
    intro f2 a ha h1 h2
    cases hd : dateLeB a b with
    | false =>
      rw [dateListF, hd]
      cases f2 with
      | zero => rw [dateListF]; simp
      | succ f2 => rw [dateListF, hd]; simp
    | true =>
      have hmono := dateOrd_mono ha hb hd
      have hstep := dateOrd_nextDay ha
      cases f2 with
      | zero => unfold daysBound at h2; omega
      | succ f2 =>
        rw [dateListF, dateListF, if_pos hd, if_pos hd]
        congr 1
        have hvn : validDate (nextDay a) = true :=
          nextDay_valid ha (by have := dateLeB_year hd; omega)
        apply ih f2 (nextDay a) hvn <;> (unfold daysBound at h1 h2 ⊢; omega)

theorem dateList_cons {a b : DateTime} (ha : validDate a = true)
    (hb : validDate b = true) (hy : b.year ≤ 9998) (hd : dateLeB a b = true) :
    dateList a b = a :: dateList (nextDay a) b := by
  have hm := dateOrd_mono ha hb hd
  have hstep := dateOrd_nextDay ha
  have hvn : validDate (nextDay a) = true :=
    nextDay_valid ha (by have := dateLeB_year hd; omega)
  unfold dateList
  obtain ⟨k, hk⟩ : ∃ k, daysBound a b = k + 1 :=
    ⟨daysBound a b - 1, by unfold daysBound; omega⟩
  rw [hk, dateListF, if_pos hd]
  congr 1
  exact dateListF_irrel b hb hy k (daysBound (nextDay a) b) (nextDay a) hvn
    (by unfold daysBound at hk ⊢; omega) le_rfl

theorem dateList_nil {a b : DateTime} (hd : dateLeB a b = false) :
    dateList a b = [] := by
  unfold dateList
  cases hk : daysBound a b with
  | zero => rw [dateListF]
  | succ k => rw [dateListF, hd]; simp

theorem filter_isFetchCall_nil {l : List Event}
    (h : ∀ ev ∈ l, isFetchCall ev = false) : l.filter isFetchCall = [] := by
  induction l with
  | nil => rfl
  | cons x xs ih =>
    have hx := h x (by simp)
    simp [List.filter_cons, hx, ih (fun ev hev => h ev (by simp [hev]))]

theorem fetchDecode_no_fetchCall (env : Env) (ec : EndpointConfig)
    (req : HttpRequest) : ∀ ev ∈ (fetchDecode env ec req).1, isFetchCall ev = false := by
  intro ev hev
  unfold fetchDecode at hev
  split_ifs at hev <;> first
    | (simp at hev
       first
         | (obtain rfl | rfl := hev <;> rfl)
         | (obtain rfl := hev; rfl))
    | (split at hev <;> (simp at hev; obtain rfl := hev; rfl))

theorem fetch_no_fetchCall (env : Env) (ec : EndpointConfig)
    (p : Option (List (String × String))) :
    ∀ ev ∈ (fetch_data env ec p).1, isFetchCall ev = false := by
  intro ev hev
  unfold fetch_data at hev
  cases hb : buildRequest env ec with
  | error e => rw [hb] at hev; simp at hev
  | ok req =>
    rw [hb] at hev
    exact fetchDecode_no_fetchCall env ec req ev hev

theorem process_no_fetchCall (env : Env) (nowUtc : DateTime) (name : String)
    (j : Json) : ∀ ev ∈ (process_data env nowUtc name j).1, isFetchCall ev = false := by
  intro ev hev
  unfold process_data at hev
  cases hl : pyLen j with
  | error e => rw [hl] at hev; simp at hev
  | ok n =>
    rw [hl] at hev
    unfold upload_to_s3 at hev
    simp at hev
    obtain rfl | rfl | rfl := hev <;> rfl

theorem persistStep_no_fetchCall (env : Env) (nowUtc : DateTime) (name : String)
    (odata : Option Json) :
    ∀ ev ∈ (persistStep env nowUtc name odata).1, isFetchCall ev = false := by
  intro ev hev
  cases odata with
  | none => unfold persistStep at hev; simp at hev
  | some j =>
    have hps : persistStep env nowUtc name (some j)
        = if pyTruthy j = true then process_data env nowUtc name j
          else ([], none) := rfl
    rw [hps] at hev
    by_cases ht : pyTruthy j = true
    · rw [if_pos ht] at hev
      exact process_no_fetchCall env nowUtc name j ev hev
    · rw [if_neg ht] at hev
      simp at hev

theorem histLoop_succ_eq (env : Env) (nowUtc : DateTime) (name : String)
    (ec : EndpointConfig) (fuel : Nat) (s e : String) :
    histLoop env nowUtc name ec (fuel+1) s e
      = (if pyStrLe s e then
          match fetch_data env ec (some [("date", s)]) with
          | (fevs, .error er) =>
            (Event.fetchCall name (some [("date", s)]) :: fevs, some er)
          | (fevs, .ok odata) =>
            match persistStep env nowUtc name odata with
            | (pevs, some er) =>
              (Event.fetchCall name (some [("date", s)]) :: (fevs ++ pevs), some er)
            | (pevs, none) =>
              match parseDate s with
              | .error er =>
                (Event.fetchCall name (some [("date", s)]) :: (fevs ++ pevs), some er)
              | .ok d =>
                match histLoop env nowUtc name ec fuel (fmtDate (nextDay d)) e with
                | (revs, rerr) =>
                  (Event.fetchCall name (some [("date", s)])
                    :: (fevs ++ (pevs ++ revs)), rerr)
        else ([], none)) := rfl

theorem histLoop_step {env : Env} {nowUtc : DateTime} {name : String}
    {ec : EndpointConfig} {fuel : Nat} {s e : String} {fevs pevs : List Event}
    {x : Option Json} {d : DateTime}
    (hle : pyStrLe s e = true)
    (hf : fetch_data env ec (some [("date", s)]) = (fevs, .ok x))
    (hp : persistStep env nowUtc name x = (pevs, none))
    (hd : parseDate s = .ok d) :
    histLoop env nowUtc name ec (fuel+1) s e
      = (Event.fetchCall name (some [("date", s)])
          :: (fevs ++ (pevs ++ (histLoop env nowUtc name ec fuel (fmtDate (nextDay d)) e).1)),
         (histLoop env nowUtc name ec fuel (fmtDate (nextDay d)) e).2) := by
  rw [histLoop_succ_eq, if_pos hle, hf]
  split
  · rename_i heq
    exact absurd heq (by simp)
  · rename_i fevs2 odata heq
    injection heq with h1 h2
    injection h2 with h2
    subst h1
    subst h2
    rw [hp]
    split
    · rename_i heq2
      exact absurd heq2 (by simp)
    · rename_i pevs2 heq2
      injection heq2 with h3 h4
      subst h3
      rw [hd]

theorem histLoop_fetchCalls (env : Env) (nowUtc : DateTime) (name : String)
    (ec : EndpointConfig) (b : DateTime) (hb : validDate b = true)
    (hyb : b.year ≤ 9998) (hclean : cleanCycle env nowUtc name ec) :
    ∀ fuel a, validDate a = true → a.hour = 0 → a.minute = 0 → a.second = 0 →
      daysBound a b < fuel →
      (histLoop env nowUtc name ec fuel (fmtDate a) (fmtDate b)).2 = none
      ∧ (histLoop env nowUtc name ec fuel (fmtDate a) (fmtDate b)).1.filter isFetchCall
        = (dateList a b).map
            (fun d => Event.fetchCall name (some [("date", fmtDate d)])) := by
  intro fuel
  induction fuel with
  | zero => intro a _ _ _ _ hlt; omega
  | succ fuel ih =>
    intro a ha hh0 hm0 hs0 hlt
    cases hd : dateLeB a b with
    | false =>
      have hle : ¬ (pyStrLe (fmtDate a) (fmtDate b) = true) := by
        rw [pyStrLe_fmtDate a b ha hb, hd]; exact Bool.false_ne_true
      rw [histLoop_succ_eq, if_neg hle]
      exact ⟨rfl, by rw [dateList_nil hd]; rfl⟩
    | true =>
      have hle : pyStrLe (fmtDate a) (fmtDate b) = true := by
        rw [pyStrLe_fmtDate a b ha hb, hd]
      obtain ⟨hfe, hpr⟩ := hclean (some [("date", fmtDate a)])
      obtain ⟨fevs, x, hf⟩ := hfe
      have hps2 : (persistStep env nowUtc name x).2 = none := by
        cases x with
        | none => rfl
        | some j =>
          have hps : persistStep env nowUtc name (some j)
              = if pyTruthy j = true then process_data env nowUtc name j
                else ([], none) := rfl
          rw [hps]
          by_cases ht : pyTruthy j = true
          · rw [if_pos ht]
            exact hpr j (by rw [hf]) ht
          · rw [if_neg ht]
      rcases hp : persistStep env nowUtc name x with ⟨pevs, perr⟩
      rw [hp] at hps2
      have hpn : perr = none := hps2
      subst hpn
      have hpd : parseDate (fmtDate a) = .ok a := by
        rw [parseDate_fmtDate a ha]
        have hae : (⟨a.year, a.month, a.day, 0, 0, 0⟩ : DateTime) = a := by
          cases a with
          | mk y mo dy hh mm ss =>
            dsimp only at hh0 hm0 hs0
            rw [hh0, hm0, hs0]
        rw [hae]
      rw [histLoop_step hle hf hp hpd]
      have hyla : a.year ≤ 9998 := le_trans (dateLeB_year hd) hyb
      have hvn := nextDay_valid ha hyla
      obtain ⟨hnh, hnm, hns⟩ := nextDay_time a
      have hmono := dateOrd_mono ha hb hd
      have hord := dateOrd_nextDay ha
      obtain ⟨hr2, hr1⟩ := ih (nextDay a) hvn (by rw [hnh, hh0]) (by rw [hnm, hm0])
        (by rw [hns, hs0]) (by unfold daysBound at hlt ⊢; omega)
      refine ⟨hr2, ?_⟩
      have hfnil : fevs.filter isFetchCall = [] :=
        filter_isFetchCall_nil (fun ev hev =>
          fetch_no_fetchCall env ec (some [("date", fmtDate a)]) ev (by rw [hf]; exact hev))
      have hpnil : pevs.filter isFetchCall = [] :=
        filter_isFetchCall_nil (fun ev hev =>
          persistStep_no_fetchCall env nowUtc name x ev (by rw [hp]; exact hev))
      rw [dateList_cons ha hb hyb hd, List.map_cons]
      dsimp only
      simp only [List.filter_cons, List.filter_append, isFetchCall, if_true,
        hfnil, hpnil, List.nil_append, hr1]

/-- **C5.** For every endpoint whose `start_date` and `end_date` are
present well-formed ISO `YYYY-MM-DD` dates, provided each day's cycle
raises no uncaught exception, the historical-backfill driver finishes
that endpoint without error and its `fetch_data` calls are exactly one
per calendar day from `start_date` to `end_date` inclusive, in ascending
order, each with `params = [("date", that day)]` (and none at all when
`start_date > end_date`). -/
theorem C5_backfill_dates (env : Env) (now nowUtc : DateTime) (name : String)
    (ec : EndpointConfig) (s0 e0 : String) (d0 d1 : DateTime)
    (hs : ec.start_date = some s0) (he : ec.end_date = some e0)
    (hd0 : parseDate s0 = .ok d0) (hd1 : parseDate e0 = .ok d1)
    (hy : d1.year ≤ 9998)
    (hclean : cleanCycle env nowUtc name ec) :
    (histEndpoint env now nowUtc name ec).2 = none
      ∧ (histEndpoint env now nowUtc name ec).1.filter isFetchCall
        = (dateList d0 d1).map
            (fun d => Event.fetchCall name (some [("date", fmtDate d)])) := by
  obtain ⟨hse, hv0, hh0, hm0, hs0t⟩ := parseDate_canonical hd0
  obtain ⟨hee, hv1, _, _, _⟩ := parseDate_canonical hd1
  subst hse
  subst hee
  have hfuel : daysBound d0 d1 < HISTFUEL := by
    obtain ⟨b1, b2, b3, b4, b5, b6⟩ := validDate_bounds hv1
    unfold daysBound dateOrd HISTFUEL
    omega
  have hmain := histLoop_fetchCalls env nowUtc name ec d1 hv1 hy hclean
    HISTFUEL d0 hv0 hh0 hm0 hs0t hfuel
  have hend : histEndpoint env now nowUtc name ec
      = histLoop env nowUtc name ec HISTFUEL (fmtDate d0) (fmtDate d1) := by
    simp only [histEndpoint, hs, he, Option.getD_some]
  rw [hend]
  exact hmain

theorem C5_backfill_dates_witness :
    (histEndpoint env404 t0 t0 "ep" ecHist).2 = none
      ∧ (histEndpoint env404 t0 t0 "ep" ecHist).1.filter isFetchCall
        = [Event.fetchCall "ep" (some [("date", "2024-01-01")]),
           Event.fetchCall "ep" (some [("date", "2024-01-02")]),
           Event.fetchCall "ep" (some [("date", "2024-01-03")])] := by
  have h := C5_backfill_dates env404 t0 t0 "ep" ecHist "2024-01-01" "2024-01-03"
    ⟨2024, 1, 1, 0, 0, 0⟩ ⟨2024, 1, 3, 0, 0, 0⟩ rfl rfl rfl rfl (by decide)
    (by
      intro p
      refine ⟨⟨_, _, rfl⟩, ?_⟩
      intro j hj ht
      exact Option.noConfusion (Except.ok.inj hj))
  refine ⟨h.1, ?_⟩
  rw [h.2]
  rfl
